import Mathlib

/-!
Shallow embedding of the WavelengthWatch backend (Python / FastAPI / SQLModel)
for verification of its natural-language specification.

Conventions of the embedding:
* Python `datetime` values stored in the database are timezone-aware UTC
  instants; we model them as `Int` seconds since the epoch.
* `datetime.date()` becomes flooring division by 86400 (Python's calendar-day
  bucketing of a UTC instant), and `timedelta.days` is likewise the floor of
  the total seconds divided by 86400, matching Python's normalized timedelta.
* Python floats in analytics results are modelled as exact rationals `Rat`;
  every arithmetic operation performed by the code (`/`, `*`, `-`) is mirrored.
* SQL sessions become explicit `DB` values (lists of rows); `HTTPException`
  raising endpoints become `Except Nat` with the HTTP status code as error.
-/

namespace WavelengthWatch

/-! ## Definitions: shallow embedding of the source, plus proof-layer helpers -/

/-- Python `Dosage` enumeration from `backend/models.py`. -/
inductive Dosage where
  | medicinal
  | toxic
deriving DecidableEq, Repr

/-- Python `InitiatedBy` enumeration from `backend/models.py`. -/
inductive InitiatedBy where
  | self
  | scheduled
deriving DecidableEq, Repr

/-- The `datetime.date()` on a UTC instant measured in seconds: floor to days. -/
def toDate (t : Int) : Int := Int.fdiv t 86400

/-- The `timedelta.days` of a duration measured in seconds (Python floors). -/
def timedeltaDays (t : Int) : Int := Int.fdiv t 86400

/-- The `datetime.hour` of a UTC instant measured in seconds. -/
def hourOf (t : Int) : Int := Int.emod (Int.fdiv t 3600) 24

/-- The `for date in dates` loop body of `_calculate_streak`: walk the
descending distinct-date list, incrementing the streak while each date matches
the expected cursor and breaking at the first gap (`date < current_date`). -/
def streakWalk : List Int → Int → Nat → Nat
  | [], _, streak => streak
  | d :: rest, current, streak =>
      if d = current then streakWalk rest (current - 1) (streak + 1)
      else if d < current then streak
      else streakWalk rest current streak

/-- The `_calculate_streak(entries, end_date)`: current streak of consecutive days
with entries, from timestamps sorted descending.  Mirrors the source: distinct
dates sorted descending, a staleness check against `end_date.date() - 1`, then
the walking loop. -/
def calculate_streak (entries : List Int) (end_date : Int) : Nat :=
  if entries.isEmpty then 0
  else
    let dates := List.insertionSort (fun a b : Int => b ≤ a) (entries.map toDate).dedup
    match dates with
    | [] => 0
    | d0 :: rest =>
        if d0 < toDate end_date - 1 then 0
        else streakWalk (d0 :: rest) d0 0

/-- The `for i in range(1, len(dates))` loop of `_calculate_longest_streak`:
`prev` is `dates[i-1]`, `current` the length of the run ending at `prev`,
`longest` the maximum run length seen so far. -/
def longestWalk : List Int → Int → Nat → Nat → Nat
  | [], _, _, longest => longest
  | d :: rest, prev, current, longest =>
      if d - prev = 1 then longestWalk rest d (current + 1) (max longest (current + 1))
      else longestWalk rest d 1 longest

/-- The `_calculate_longest_streak(entries)`: longest run of consecutive days,
from the distinct dates sorted ascending. -/
def calculate_longest_streak (entries : List Int) : Nat :=
  if entries.isEmpty then 0
  else
    let dates := List.insertionSort (fun a b : Int => a ≤ b) (entries.map toDate).dedup
    match dates with
    | [] => 0
    | d0 :: rest => longestWalk rest d0 1 1

/-- The `Layer` reference row. -/
structure Layer where
  id : Nat
  color : String
  title : String
  subtitle : String
deriving DecidableEq, Repr

/-- The `Phase` reference row. -/
structure Phase where
  id : Nat
  name : String
deriving DecidableEq, Repr

/-- The `Curriculum` reference row. -/
structure Curriculum where
  id : Nat
  layer_id : Nat
  phase_id : Nat
  dosage : Dosage
  expression : String
deriving DecidableEq, Repr

/-- The `Strategy` reference row. -/
structure Strategy where
  id : Nat
  strategy : String
  layer_id : Nat
  color_layer_id : Nat
  phase_id : Nat
deriving DecidableEq, Repr

/-- The `Journal` row.  `created_at` is a UTC instant in seconds. -/
structure Journal where
  id : Nat
  created_at : Int
  user_id : Nat
  curriculum_id : Nat
  secondary_curriculum_id : Option Nat
  strategy_id : Option Nat
  initiated_by : InitiatedBy
deriving DecidableEq, Repr

/-- The relational database backing a session: one list per table. -/
structure DB where
  layers : List Layer
  phases : List Phase
  curricula : List Curriculum
  strategies : List Strategy
  journals : List Journal
deriving DecidableEq, Repr

/-- The shared `WHERE` clause of every analytics query:
`Journal.user_id == user_id AND created_at >= start AND created_at <= end`. -/
def inWindow (j : Journal) (user_id : Nat) (start_date end_date : Int) : Bool :=
  j.user_id == user_id && decide (start_date ≤ j.created_at)
    && decide (j.created_at ≤ end_date)

/-- The journal rows a windowed analytics query fetches for a user. -/
def windowEntries (db : DB) (user_id : Nat) (start_date end_date : Int) :
    List Journal :=
  db.journals.filter (fun j => inWindow j user_id start_date end_date)

/-- The `JOIN Curriculum ON Journal.curriculum_id == Curriculum.id` projection
to dosage used by `_calculate_medicinal_ratio` (inner join: rows whose
curriculum id does not resolve are dropped). -/
def joinedDosages (db : DB) (user_id : Nat) (start_date end_date : Int) :
    List Dosage :=
  (windowEntries db user_id start_date end_date).filterMap
    (fun j => (db.curricula.find? (fun c => c.id == j.curriculum_id)).map
      (fun c => c.dosage))

/-- The `_calculate_medicinal_ratio`: percentage of in-window entries whose joined
curriculum dosage is Medicinal; `0.0` when the grouped result set is empty or
the total is zero. -/
def calculate_medicinal_ratio (db : DB) (user_id : Nat)
    (start_date end_date : Int) : Rat :=
  let results := joinedDosages db user_id start_date end_date
  if results.isEmpty then 0
  else
    let total : Nat := results.length
    let medicinal : Nat := results.countP (fun d => d == Dosage.medicinal)
    if 0 < total then ((medicinal : Rat) / (total : Rat)) * 100 else 0

/-- The `_calculate_medicinal_trend`: current-window medicinal ratio minus the
ratio over the immediately preceding window of identical duration. -/
def calculate_medicinal_trend (db : DB) (user_id : Nat)
    (start_date end_date : Int) : Rat :=
  let duration := end_date - start_date
  let prev_end_date := start_date
  let prev_start_date := start_date - duration
  let current_ratio := calculate_medicinal_ratio db user_id start_date end_date
  let prev_ratio := calculate_medicinal_ratio db user_id prev_start_date prev_end_date
  current_ratio - prev_ratio

/-- One `(key, count)` group of a SQL `GROUP BY key` with `COUNT(*)` over the
joined in-window rows, produced only for keys with at least one row. -/
def groupCounts (keys : List Nat) (occurrences : List Nat) : List (Nat × Nat) :=
  keys.dedup.filterMap (fun k =>
    let n := occurrences.countP (fun x => x == k)
    if 0 < n then some (k, n) else none)

/-- Layer ids of the joined curricula of in-window entries. -/
def joinedLayerIds (db : DB) (user_id : Nat) (start_date end_date : Int) :
    List Nat :=
  (windowEntries db user_id start_date end_date).filterMap
    (fun j => (db.curricula.find? (fun c => c.id == j.curriculum_id)).map
      (fun c => c.layer_id))

/-- Phase ids of the joined curricula of in-window entries. -/
def joinedPhaseIds (db : DB) (user_id : Nat) (start_date end_date : Int) :
    List Nat :=
  (windowEntries db user_id start_date end_date).filterMap
    (fun j => (db.curricula.find? (fun c => c.id == j.curriculum_id)).map
      (fun c => c.phase_id))

/-- Pick the first key of maximal count: `ORDER BY cnt DESC LIMIT 1` (the SQL
tie-break among equal counts is unspecified; the embedding takes the first
maximal group in table order). -/
def argmaxCount : List (Nat × Nat) → Option (Nat × Nat)
  | [] => none
  | p :: rest =>
      match argmaxCount rest with
      | none => some p
      | some q => if q.2 > p.2 then some q else some p

/-- The `_get_dominant_layer_and_phase`: most frequent layer id and phase id over
the fixed trailing 7-day window ending at `end_date`; `none` when that slice
is empty. -/
def get_dominant_layer_and_phase (db : DB) (user_id : Nat) (end_date : Int) :
    Option Nat × Option Nat :=
  let seven_days_ago := end_date - 7 * 86400
  let layerGroups :=
    groupCounts (db.curricula.map (fun c => c.layer_id))
      (joinedLayerIds db user_id seven_days_ago end_date)
  let phaseGroups :=
    groupCounts (db.curricula.map (fun c => c.phase_id))
      (joinedPhaseIds db user_id seven_days_ago end_date)
  ((argmaxCount layerGroups).map (fun p => p.1),
   (argmaxCount phaseGroups).map (fun p => p.1))

/-- The `AnalyticsOverview` response model. -/
structure AnalyticsOverview where
  total_entries : Nat
  current_streak : Nat
  avg_frequency : Rat
  last_check_in : Int
  medicinal_ratio : Rat
  medicinal_trend : Rat
  dominant_layer_id : Option Nat
  dominant_phase_id : Option Nat
  unique_emotions : Nat
  strategies_used : Nat
  secondary_emotions_pct : Rat
deriving DecidableEq, Repr

/-- The `LayerDistributionItem` response model. -/
structure LayerDistributionItem where
  layer_id : Nat
  count : Nat
  percentage : Rat
deriving DecidableEq, Repr

/-- The `PhaseDistributionItem` response model. -/
structure PhaseDistributionItem where
  phase_id : Nat
  count : Nat
  percentage : Rat
deriving DecidableEq, Repr

/-- The `TopEmotionItem` response model. -/
structure TopEmotionItem where
  curriculum_id : Nat
  expression : String
  layer_id : Nat
  phase_id : Nat
  dosage : Dosage
  count : Nat
deriving DecidableEq, Repr

/-- The `EmotionalLandscape` response model. -/
structure EmotionalLandscape where
  layer_distribution : List LayerDistributionItem
  phase_distribution : List PhaseDistributionItem
  top_emotions : List TopEmotionItem
deriving DecidableEq, Repr

/-- The `TopStrategyItem` response model. -/
structure TopStrategyItem where
  strategy_id : Nat
  strategy : String
  count : Nat
  percentage : Rat
deriving DecidableEq, Repr

/-- The `SelfCareAnalytics` response model. -/
structure SelfCareAnalytics where
  top_strategies : List TopStrategyItem
  diversity_score : Rat
  total_strategy_entries : Nat
deriving DecidableEq, Repr

/-- The `HourlyDistributionItem` response model. -/
structure HourlyDistributionItem where
  hour : Int
  count : Nat
deriving DecidableEq, Repr

/-- The `TemporalPatterns` response model. -/
structure TemporalPatterns where
  hourly_distribution : List HourlyDistributionItem
  consistency_score : Rat
deriving DecidableEq, Repr

/-- The `GrowthIndicators` response model. -/
structure GrowthIndicators where
  medicinal_trend : Rat
  layer_diversity : Nat
  phase_coverage : Nat
deriving DecidableEq, Repr

/-- The `GET /analytics/overview`: raises 404 when the user has no in-window
entries, otherwise computes every overview metric.  The fetched rows are
ordered by `created_at` descending. -/
def get_analytics_overview (db : DB) (user_id : Nat)
    (start_date end_date : Int) : Except Nat AnalyticsOverview :=
  let entries :=
    List.insertionSort (fun a b : Journal => b.created_at ≤ a.created_at)
      (windowEntries db user_id start_date end_date)
  match entries with
  | [] => Except.error 404
  | e0 :: _ =>
      let total_entries := entries.length
      let entry_timestamps := entries.map (fun j => j.created_at)
      let current_streak := calculate_streak entry_timestamps end_date
      let days_in_period := timedeltaDays (end_date - start_date) + 1
      let avg_frequency : Rat :=
        if 0 < days_in_period then (total_entries : Rat) / (days_in_period : Rat)
        else 0
      let dominant := get_dominant_layer_and_phase db user_id end_date
      let unique_emotions :=
        ((windowEntries db user_id start_date end_date).map
          (fun j => j.curriculum_id)).dedup.length
      let strategies_used :=
        ((windowEntries db user_id start_date end_date).filterMap
          (fun j => j.strategy_id)).dedup.length
      let entries_with_secondary :=
        (windowEntries db user_id start_date end_date).countP
          (fun j => j.secondary_curriculum_id.isSome)
      let secondary_emotions_pct : Rat :=
        if 0 < total_entries
        then ((entries_with_secondary : Rat) / (total_entries : Rat)) * 100
        else 0
      Except.ok
        { total_entries := total_entries
          current_streak := current_streak
          avg_frequency := avg_frequency
          last_check_in := e0.created_at
          medicinal_ratio := calculate_medicinal_ratio db user_id start_date end_date
          medicinal_trend := calculate_medicinal_trend db user_id start_date end_date
          dominant_layer_id := dominant.1
          dominant_phase_id := dominant.2
          unique_emotions := unique_emotions
          strategies_used := strategies_used
          secondary_emotions_pct := secondary_emotions_pct }

/-- Primary-emotion groups: `GROUP BY` the full curriculum tuple over
in-window rows joined on `Journal.curriculum_id`, with `COUNT(*)`. -/
def primaryEmotionGroups (db : DB) (user_id : Nat) (start_date end_date : Int) :
    List (Curriculum × Nat) :=
  db.curricula.filterMap (fun c =>
    let n := (windowEntries db user_id start_date end_date).countP
      (fun j => j.curriculum_id == c.id)
    if 0 < n then some (c, n) else none)

/-- Secondary-emotion groups: as above but joined on
`Journal.secondary_curriculum_id` (the `IS NOT NULL` filter is implied by the
join succeeding). -/
def secondaryEmotionGroups (db : DB) (user_id : Nat)
    (start_date end_date : Int) : List (Curriculum × Nat) :=
  db.curricula.filterMap (fun c =>
    let n := (windowEntries db user_id start_date end_date).countP
      (fun j => j.secondary_curriculum_id == some c.id)
    if 0 < n then some (c, n) else none)

/-- One step of `_accumulate_emotion_counts`: a missing key is appended with
zero and immediately incremented; an existing key keeps its first-seen
metadata and adds the new count. -/
def bumpEmotion (counts : List TopEmotionItem) (row : Curriculum × Nat) :
    List TopEmotionItem :=
  if counts.any (fun it => it.curriculum_id == row.1.id) then
    counts.map (fun it =>
      if it.curriculum_id == row.1.id then
        { it with count := it.count + row.2 }
      else it)
  else
    counts ++ [{ curriculum_id := row.1.id, expression := row.1.expression,
                 layer_id := row.1.layer_id, phase_id := row.1.phase_id,
                 dosage := row.1.dosage, count := row.2 }]

/-- The `_accumulate_emotion_counts(emotion_counts, results)` over an
insertion-ordered association list. -/
def accumulate_emotion_counts (counts : List TopEmotionItem)
    (results : List (Curriculum × Nat)) : List TopEmotionItem :=
  results.foldl bumpEmotion counts

/-- The combined, sorted, truncated top-emotions list of
`get_emotional_landscape`. -/
def topEmotions (db : DB) (user_id : Nat) (start_date end_date : Int)
    (limit : Nat) : List TopEmotionItem :=
  let emotion_counts :=
    accumulate_emotion_counts
      (accumulate_emotion_counts [] (primaryEmotionGroups db user_id start_date end_date))
      (secondaryEmotionGroups db user_id start_date end_date)
  let sorted_emotions :=
    List.insertionSort (fun x y : TopEmotionItem => y.count ≤ x.count)
      emotion_counts
  sorted_emotions.take limit

/-- Default of the `limit` query parameter of `GET
/analytics/emotional-landscape` (`Query(ge=1, le=100)] = 10`). -/
def topEmotionsDefaultLimit : Nat := 10

/-- Upper bound of the `limit` query parameter of `GET
/analytics/emotional-landscape`. -/
def topEmotionsMaxLimit : Nat := 100

/-- The `GET /analytics/emotional-landscape`: raises 404 when the in-window entry
count is zero, otherwise returns layer/phase distributions and the combined
top-emotions ranking. -/
def get_emotional_landscape (db : DB) (user_id : Nat)
    (start_date end_date : Int) (limit : Nat) : Except Nat EmotionalLandscape :=
  let total_entries := (windowEntries db user_id start_date end_date).length
  if total_entries == 0 then Except.error 404
  else
    let layer_results :=
      groupCounts (db.curricula.map (fun c => c.layer_id))
        (joinedLayerIds db user_id start_date end_date)
    let layer_distribution := layer_results.map (fun p =>
      LayerDistributionItem.mk p.1 p.2
        (if 0 < total_entries then ((p.2 : Rat) / (total_entries : Rat)) * 100 else 0))
    let phase_results :=
      groupCounts (db.curricula.map (fun c => c.phase_id))
        (joinedPhaseIds db user_id start_date end_date)
    let phase_distribution := phase_results.map (fun p =>
      PhaseDistributionItem.mk p.1 p.2
        (if 0 < total_entries then ((p.2 : Rat) / (total_entries : Rat)) * 100 else 0))
    Except.ok
      { layer_distribution := layer_distribution
        phase_distribution := phase_distribution
        top_emotions := topEmotions db user_id start_date end_date limit }

/-- One step of the strategy-count dictionary build in
`get_self_care_analytics`. -/
def bumpStrategy (counts : List (Nat × Nat)) (j : Journal) : List (Nat × Nat) :=
  match j.strategy_id with
  | none => counts
  | some sid =>
      if counts.any (fun p => p.1 == sid) then
        counts.map (fun p => if p.1 == sid then (p.1, p.2 + 1) else p)
      else counts ++ [(sid, 1)]

/-- The `GET /analytics/self-care`: zero-valued structure when no in-window entry
carries a strategy; otherwise per-strategy counts, diversity score, and the
top strategies sorted by count descending, truncated to `limit`. -/
def get_self_care_analytics (db : DB) (user_id : Nat)
    (start_date end_date : Int) (limit : Nat) : Except Nat SelfCareAnalytics :=
  let entries_with_strategies :=
    (windowEntries db user_id start_date end_date).filter
      (fun j => j.strategy_id.isSome)
  let total_strategy_entries := entries_with_strategies.length
  if total_strategy_entries == 0 then
    Except.ok { top_strategies := [], diversity_score := 0,
                total_strategy_entries := 0 }
  else
    let strategy_counts := entries_with_strategies.foldl bumpStrategy []
    let unique_strategies := strategy_counts.length
    let diversity_score : Rat :=
      ((unique_strategies : Rat) / (total_strategy_entries : Rat)) * 100
    let top_strategies_list := strategy_counts.map (fun p =>
      TopStrategyItem.mk p.1
        (((db.strategies.find? (fun s => s.id == p.1)).map
          (fun s => s.strategy)).getD "Unknown")
        p.2
        (((p.2 : Rat) / (total_strategy_entries : Rat)) * 100))
    let sorted :=
      List.insertionSort (fun x y : TopStrategyItem => y.count ≤ x.count)
        top_strategies_list
    Except.ok { top_strategies := sorted.take limit,
                diversity_score := diversity_score,
                total_strategy_entries := total_strategy_entries }

/-- One step of the hour-count dictionary build in `get_temporal_patterns`. -/
def bumpHour (counts : List (Int × Nat)) (j : Journal) : List (Int × Nat) :=
  let h := hourOf j.created_at
  if counts.any (fun p => p.1 == h) then
    counts.map (fun p => if p.1 == h then (p.1, p.2 + 1) else p)
  else counts ++ [(h, 1)]

/-- The `GET /analytics/temporal`: sparse hour-of-day buckets sorted ascending and
the consistency score (distinct entry dates over inclusive calendar days). -/
def get_temporal_patterns (db : DB) (user_id : Nat)
    (start_date end_date : Int) : Except Nat TemporalPatterns :=
  let entries := windowEntries db user_id start_date end_date
  let hour_counts := entries.foldl bumpHour []
  let hourly_distribution :=
    (List.insertionSort (fun a b : Int × Nat => a.1 ≤ b.1) hour_counts).map
      (fun p => HourlyDistributionItem.mk p.1 p.2)
  let consistency_score : Rat :=
    if entries.isEmpty then 0
    else
      let unique_dates := (entries.map (fun j => toDate j.created_at)).dedup
      let total_days := toDate end_date - toDate start_date + 1
      ((unique_dates.length : Rat) / (total_days : Rat)) * 100
  Except.ok { hourly_distribution := hourly_distribution,
              consistency_score := consistency_score }

/-- The `GET /analytics/growth`: medicinal trend plus counts of distinct layers
and phases touched by in-window curriculum references. -/
def get_growth_indicators (db : DB) (user_id : Nat)
    (start_date end_date : Int) : Except Nat GrowthIndicators :=
  let medicinal_trend := calculate_medicinal_trend db user_id start_date end_date
  let unique_layers := (joinedLayerIds db user_id start_date end_date).dedup
  let unique_phases := (joinedPhaseIds db user_id start_date end_date).dedup
  Except.ok { medicinal_trend := medicinal_trend,
              layer_diversity := unique_layers.length,
              phase_coverage := unique_phases.length }

/-- A Python `datetime` as the schema validators see it: wall-clock seconds
plus an optional UTC-offset in seconds (`tzinfo`); `none` means naive. -/
structure PyDatetime where
  naive : Int
  tz : Option Int
deriving DecidableEq, Repr

/-- The UTC instant a `PyDatetime` denotes, reading a naive value as UTC. -/
def instantOf (d : PyDatetime) : Int := d.naive - d.tz.getD 0

/-- The `_coerce_datetime`: `None` passes through; a naive datetime gains
`tzinfo=UTC` without changing its wall clock; then `astimezone(UTC)` converts
to the equivalent UTC instant (string parsing is out of the embedding:
`fromisoformat` yields one of these values). -/
def coerce_datetime : Option PyDatetime → Option PyDatetime
  | none => none
  | some d =>
      let d1 := if d.tz.isNone then { d with tz := some 0 } else d
      some { naive := d1.naive - d1.tz.getD 0, tz := some 0 }

/-- The `JournalBase._validate_created_at`: coercion plus a required-value check
(`raise ValueError` becomes an `Except.error`). -/
def validate_created_at_base (value : Option PyDatetime) :
    Except String PyDatetime :=
  match coerce_datetime value with
  | none => Except.error "created_at is required"
  | some parsed => Except.ok parsed

/-- The `JournalUpdate._validate_created_at`: bare coercion, `None` allowed. -/
def validate_created_at_update (value : Option PyDatetime) :
    Option PyDatetime :=
  coerce_datetime value

/-- The `JournalUpdate` payload after `model_dump(exclude_unset=True)`: an outer
`none` means the field was absent from the request body.  For the nullable
references the inner `Option` is the stored value (`some v` sets, `none`
clears). -/
structure JournalUpdate where
  created_at : Option Int
  user_id : Option Nat
  curriculum_id : Option Nat
  secondary_curriculum_id : Option (Option Nat)
  strategy_id : Option (Option Nat)
  initiated_by : Option InitiatedBy
deriving DecidableEq, Repr

/-- The `if data:` — true exactly when no field was supplied. -/
def JournalUpdate.isEmpty (p : JournalUpdate) : Bool :=
  p.created_at.isNone && p.user_id.isNone && p.curriculum_id.isNone
    && p.secondary_curriculum_id.isNone && p.strategy_id.isNone
    && p.initiated_by.isNone

/-- The `setattr` loop: overwrite exactly the supplied fields. -/
def applyJournalUpdate (j : Journal) (p : JournalUpdate) : Journal :=
  { j with
    created_at := p.created_at.getD j.created_at
    user_id := p.user_id.getD j.user_id
    curriculum_id := p.curriculum_id.getD j.curriculum_id
    secondary_curriculum_id :=
      p.secondary_curriculum_id.getD j.secondary_curriculum_id
    strategy_id := p.strategy_id.getD j.strategy_id
    initiated_by := p.initiated_by.getD j.initiated_by }

/-- The `_validate_references`: 400 when the curriculum, the supplied secondary
curriculum, or the supplied strategy id resolves to no row (`session.get`). -/
def validate_references (db : DB) (curriculum_id : Nat)
    (secondary_curriculum_id : Option Nat) (strategy_id : Option Nat) :
    Except Nat Unit :=
  if (db.curricula.find? (fun c => c.id == curriculum_id)).isNone then
    Except.error 400
  else if (match secondary_curriculum_id with
           | some s => (db.curricula.find? (fun c : Curriculum => c.id == s)).isNone
           | none => false) then
    Except.error 400
  else if (match strategy_id with
           | some s => (db.strategies.find? (fun st : Strategy => st.id == s)).isNone
           | none => false) then
    Except.error 400
  else Except.ok ()

/-- The `PUT /journal/\x7bjournal_id\x7d`: fetch-or-404, no-op on an empty
payload, reference validation before any field is written, then the write.
The pair carries the database state alongside the response so the
exception paths (which leave the session untouched) are observable. -/
def update_journal (db : DB) (journal_id : Nat) (payload : JournalUpdate) :
    Except Nat Journal × DB :=
  match db.journals.find? (fun j => j.id == journal_id) with
  | none => (Except.error 404, db)
  | some journal =>
      if payload.isEmpty then (Except.ok journal, db)
      else
        let curriculum_id := payload.curriculum_id.getD journal.curriculum_id
        let secondary_curriculum_id :=
          payload.secondary_curriculum_id.getD journal.secondary_curriculum_id
        let strategy_id := payload.strategy_id.getD journal.strategy_id
        match validate_references db curriculum_id secondary_curriculum_id
            strategy_id with
        | Except.error e => (Except.error e, db)
        | Except.ok _ =>
            let updated := applyJournalUpdate journal payload
            let db2 := { db with journals := db.journals.map (fun j =>
              if j.id == journal_id then updated else j) }
            (Except.ok updated, db2)

/-- The `CatalogCurriculumEntry` payload item. -/
structure CatalogCurriculumEntry where
  id : Nat
  dosage : Dosage
  expression : String
deriving DecidableEq, Repr

/-- The `CatalogStrategy` payload item, with the fields `build_catalog` supplies. -/
structure CatalogStrategy where
  id : Nat
  strategy : String
deriving DecidableEq, Repr

/-- The `CatalogPhase` payload item. -/
structure CatalogPhase where
  id : Nat
  name : String
  medicinal : List CatalogCurriculumEntry
  toxic : List CatalogCurriculumEntry
  strategies : List CatalogStrategy
deriving DecidableEq, Repr

/-- The `CatalogLayer` payload item. -/
structure CatalogLayer where
  id : Nat
  color : String
  title : String
  subtitle : String
  phases : List CatalogPhase
deriving DecidableEq, Repr

/-- The `CatalogResponse` payload. -/
structure CatalogResponse where
  phase_order : List String
  layers : List CatalogLayer
deriving DecidableEq, Repr

/-- The `backend/constants.py` `PHASE_ORDER`: the canonical display order. -/
def PHASE_ORDER : List String :=
  ["Rising", "Peaking", "Withdrawal", "Diminishing", "Bottoming Out",
   "Restoration"]

/-- The `\x7bphase_id: index\x7d.get`: the dict comprehension keeps the last
binding of a duplicated key, hence the last matching index. -/
def phaseIndexOf (template : List (Nat × String)) (pid : Nat) : Option Nat :=
  ((template.enum.filter (fun x => x.2.1 == pid)).getLast?).map
    (fun x => x.1)

/-- In-place list update at an index (Python `catalog_layer.phases[index]`). -/
def modifyAt : List α → Nat → (α → α) → List α
  | [], _, _ => []
  | x :: xs, 0, f => f x :: xs
  | x :: xs, n + 1, f => x :: modifyAt xs n f

/-- Python tuple `<=` on the `(phase index or inf, id)` sort keys. -/
def lexLe (a b : Nat × Nat) : Bool :=
  a.1 < b.1 || (a.1 == b.1 && a.2 ≤ b.2)

/-- Sort key of a curriculum item inside a layer: missing phase ids sort after
every real index (`float("inf")`), ties broken by curriculum id. -/
def currKey (template : List (Nat × String)) (c : Curriculum) : Nat × Nat :=
  ((phaseIndexOf template c.phase_id).getD template.length, c.id)

/-- Sort key of a strategy inside a layer. -/
def stratKey (template : List (Nat × String)) (s : Strategy) : Nat × Nat :=
  ((phaseIndexOf template s.phase_id).getD template.length, s.id)

/-- Bucket one curriculum row into the per-layer phase list (the loop body:
skip unknown phase ids and out-of-range indexes, then append to the
medicinal or toxic bucket). -/
def placeCurriculum (template : List (Nat × String))
    (phases : List CatalogPhase) (c : Curriculum) : List CatalogPhase :=
  match phaseIndexOf template c.phase_id with
  | none => phases
  | some index =>
      if index < phases.length then
        modifyAt phases index (fun ph =>
          if c.dosage == Dosage.medicinal then
            { ph with medicinal :=
                ph.medicinal ++ [CatalogCurriculumEntry.mk c.id c.dosage c.expression] }
          else
            { ph with toxic :=
                ph.toxic ++ [CatalogCurriculumEntry.mk c.id c.dosage c.expression] })
      else phases

/-- Bucket one strategy row into the per-layer phase list. -/
def placeStrategy (template : List (Nat × String))
    (phases : List CatalogPhase) (s : Strategy) : List CatalogPhase :=
  match phaseIndexOf template s.phase_id with
  | none => phases
  | some index =>
      if index < phases.length then
        modifyAt phases index (fun ph =>
          { ph with strategies := ph.strategies ++ [CatalogStrategy.mk s.id s.strategy] })
      else phases

/-- The `build_catalog`: phases ordered by id give the template and
`phase_order`; layers ordered by id each get a blank bucket per template
phase; each layer's curriculum rows and strategies, ordered by
`(phase index, id)`, are folded into the buckets. -/
def build_catalog (db : DB) : CatalogResponse :=
  let phase_template :=
    (List.insertionSort (fun a b : Phase => a.id ≤ b.id) db.phases).map
      (fun p => (p.id, p.name))
  let phase_order := phase_template.map (fun p => p.2)
  let layers := List.insertionSort (fun a b : Layer => a.id ≤ b.id) db.layers
  let ordered_layers := layers.map (fun layer =>
    let catalog_phases :=
      phase_template.map (fun p => CatalogPhase.mk p.1 p.2 [] [] [])
    let withCurriculum :=
      (List.insertionSort
        (fun a b : Curriculum =>
          lexLe (currKey phase_template a) (currKey phase_template b))
        (db.curricula.filter (fun c => c.layer_id == layer.id))).foldl
        (placeCurriculum phase_template) catalog_phases
    let withStrategies :=
      (List.insertionSort
        (fun a b : Strategy =>
          lexLe (stratKey phase_template a) (stratKey phase_template b))
        (db.strategies.filter (fun s => s.layer_id == layer.id))).foldl
        (placeStrategy phase_template) withCurriculum
    CatalogLayer.mk layer.id layer.color layer.title layer.subtitle
      withStrategies)
  CatalogResponse.mk phase_order ordered_layers

/-- Length of the prefix of `l` matching the expected cursor `c`, `c - 1`, …
(the semantics of the current-streak walking loop). -/
def matchLen : List Int → Int → Nat
  | [], _ => 0
  | d :: r, c => if d = c then 1 + matchLen r (c - 1) else 0

/-- The descending run `[c, c-1, …, c-n+1]`. -/
def descRun : Int → Nat → List Int
  | _, 0 => []
  | c, n + 1 => c :: descRun (c - 1) n

/-- The ascending run `[a, a+1, …, a+n-1]`. -/
def ascRun : Int → Nat → List Int
  | _, 0 => []
  | a, n + 1 => a :: ascRun (a + 1) n

/-- Length of the prefix of `l` continuing the run after `p` upward. -/
def contLen : List Int → Int → Nat
  | [], _ => 0
  | d :: r, p => if d = p + 1 then 1 + contLen r d else 0

/-- The longest ascending-by-one run of adjacent elements anywhere in `l`. -/
def maxRunFrom : List Int → Nat
  | [] => 0
  | d :: r => max (1 + contLen r d) (maxRunFrom r)

/-- Exact value tracked by the longest-streak scan (before the running
maximum with the initial value is applied). -/
def runsFrom : List Int → Int → Nat → Nat
  | [], _, _ => 0
  | d :: rest, prev, cur =>
      if d - prev = 1 then max (cur + 1) (runsFrom rest d (cur + 1))
      else max 1 (runsFrom rest d 1)

instance : IsTotal Int (fun a b : Int => b ≤ a) := ⟨fun a b => le_total b a⟩

instance : IsTrans Int (fun a b : Int => b ≤ a) :=
  ⟨fun _ _ _ h1 h2 => le_trans h2 h1⟩

instance : IsTotal Int (fun a b : Int => a ≤ b) := ⟨fun a b => le_total a b⟩

instance : IsTrans Int (fun a b : Int => a ≤ b) :=
  ⟨fun _ _ _ h1 h2 => le_trans h1 h2⟩

instance : IsAntisymm Int (fun a b : Int => a ≤ b) :=
  ⟨fun _ _ h1 h2 => le_antisymm h1 h2⟩

/-- The `sorted(S, reverse=True)`: the descending sort used by the current-streak
computation. -/
def sortDesc (u : List Int) : List Int :=
  List.insertionSort (fun a b : Int => b ≤ a) u

/-- The `sorted(S)`: the ascending sort used by the longest-streak computation. -/
def sortAsc (u : List Int) : List Int :=
  List.insertionSort (fun a b : Int => a ≤ b) u

instance : IsAntisymm Int (fun a b : Int => b ≤ a) :=
  ⟨fun _ _ h1 h2 => le_antisymm h2 h1⟩

/-- The count stored for curriculum id `k` in an accumulated list (0 when the
key is absent). -/
def getCnt (l : List TopEmotionItem) (k : Nat) : Nat :=
  ((l.find? (fun it => it.curriculum_id == k)).map (fun it => it.count)).getD 0

/-- Total count attributed to curriculum id `k` by a list of groups. -/
def sumCounts : List (Curriculum × Nat) → Nat → Nat
  | [], _ => 0
  | r :: rs, k => (if r.1.id = k then r.2 else 0) + sumCounts rs k

instance : IsTotal TopEmotionItem (fun x y => y.count ≤ x.count) :=
  ⟨fun a b => le_total b.count a.count⟩

instance : IsTrans TopEmotionItem (fun x y => y.count ≤ x.count) :=
  ⟨fun _ _ _ h1 h2 => le_trans h2 h1⟩

/-- Modelled from the spec's words for claim C2: the inclusive calendar-day
count `(end.date() - start.date()).days + 1` between the window endpoints. -/
def days_in_period_spec (start_date end_date : Int) : Int :=
  (toDate end_date - toDate start_date) + 1

/-- A database with a single journal entry at 24:00 UTC of day 1 for user 1. -/
def dbOneEntry : DB :=
  { layers := [], phases := [],
    curricula := [{ id := 1, layer_id := 1, phase_id := 1,
                    dosage := Dosage.medicinal, expression := "Calm" }],
    strategies := [],
    journals := [{ id := 1, created_at := 86400, user_id := 1,
                   curriculum_id := 1, secondary_curriculum_id := none,
                   strategy_id := none, initiated_by := InitiatedBy.self }] }

/-- A database whose only journal entry for user 1 sits in the window
immediately preceding days 10 to 20. -/
def dbPrevEntry : DB :=
  { layers := [], phases := [],
    curricula := [{ id := 1, layer_id := 1, phase_id := 1,
                    dosage := Dosage.medicinal, expression := "Calm" }],
    strategies := [],
    journals := [{ id := 1, created_at := 432000, user_id := 1,
                   curriculum_id := 1, secondary_curriculum_id := none,
                   strategy_id := none, initiated_by := InitiatedBy.self }] }

/-- A database whose six phases carry the canonical names with ids assigned
in the reverse of the canonical display order. -/
def dbPhasesScrambled : DB :=
  { layers := [],
    phases := [{ id := 1, name := "Restoration" },
               { id := 2, name := "Bottoming Out" },
               { id := 3, name := "Diminishing" },
               { id := 4, name := "Withdrawal" },
               { id := 5, name := "Peaking" },
               { id := 6, name := "Rising" }],
    curricula := [], strategies := [], journals := [] }

/-- The overview record the API returns for `dbOneEntry` over the window
from 82800 to 90000 (fields kept in the shape the endpoint computes). -/
def dbOneEntryRecord : AnalyticsOverview :=
  { total_entries := 1
    current_streak := 1
    avg_frequency := ((1 : Nat) : Rat) /
      ((timedeltaDays (90000 - 82800) + 1 : Int) : Rat)
    last_check_in := 86400
    medicinal_ratio := calculate_medicinal_ratio dbOneEntry 1 82800 90000
    medicinal_trend := calculate_medicinal_trend dbOneEntry 1 82800 90000
    dominant_layer_id := (get_dominant_layer_and_phase dbOneEntry 1 90000).1
    dominant_phase_id := (get_dominant_layer_and_phase dbOneEntry 1 90000).2
    unique_emotions := 1
    strategies_used := 0
    secondary_emotions_pct :=
      (((0 : Nat) : Rat) / ((1 : Nat) : Rat)) * 100 }

/-- A catalog database with scrambled phase ids and one layer. -/
def dbCatalogSample : DB :=
  { layers := [{ id := 1, color := "Beige", title := "SELF-CARE",
                 subtitle := "(For Surfing)" }],
    phases := [{ id := 1, name := "Restoration" },
               { id := 2, name := "Bottoming Out" },
               { id := 3, name := "Diminishing" },
               { id := 4, name := "Withdrawal" },
               { id := 5, name := "Peaking" },
               { id := 6, name := "Rising" }],
    curricula := [], strategies := [], journals := [] }

/-! ## Theorems -/

theorem streakWalk_eq_matchLen (l : List Int) :
    ∀ (c : Int) (s : Nat), List.Pairwise (fun a b : Int => b < a) l →
    (∀ x ∈ l, x ≤ c) → streakWalk l c s = s + matchLen l c := by
  induction l with
  | nil => intro c s _ _; simp [streakWalk, matchLen]
  | cons d r ih =>
      intro c s hpw hle
      by_cases hd : d = c
      · subst hd
        have hbound : ∀ x ∈ r, x ≤ d - 1 := by
          intro x hx
          have := (List.pairwise_cons.mp hpw).1 x hx
          omega
        rw [streakWalk, if_pos rfl, matchLen, if_pos rfl]
        rw [ih (d - 1) (s + 1) (List.pairwise_cons.mp hpw).2 hbound]
        omega
      · have hlt : d < c := lt_of_le_of_ne (hle d (List.mem_cons_self d r)) hd
        rw [streakWalk, if_neg hd, if_pos hlt, matchLen, if_neg hd]
        omega

theorem matchLen_decomp (l : List Int) :
    ∀ c : Int, ∃ tail, l = descRun c (matchLen l c) ++ tail ∧
      (tail = [] ∨ ∃ h t, tail = h :: t ∧ h ≠ c - matchLen l c) := by
  induction l with
  | nil => intro c; exact ⟨[], by simp [matchLen, descRun], Or.inl rfl⟩
  | cons d r ih =>
      intro c
      by_cases hd : d = c
      · subst hd
        obtain ⟨tail, hdecomp, hhead⟩ := ih (d - 1)
        refine ⟨tail, ?_, ?_⟩
        · rw [matchLen, if_pos rfl]
          rw [show 1 + matchLen r (d - 1) = matchLen r (d - 1) + 1 from by omega]
          rw [descRun, List.cons_append]
          exact congrArg (d :: ·) hdecomp
        · rcases hhead with h | ⟨h, t, ht, hne⟩
          · exact Or.inl h
          · refine Or.inr ⟨h, t, ht, ?_⟩
            rw [matchLen, if_pos rfl]
            intro hEq
            apply hne
            omega
      · refine ⟨d :: r, ?_, Or.inr ⟨d, r, rfl, ?_⟩⟩
        · rw [matchLen, if_neg hd]
          rfl
        · rw [matchLen, if_neg hd]
          intro hEq
          apply hd
          omega

theorem mem_descRun {x : Int} : ∀ (n : Nat) (c : Int),
    x ∈ descRun c n ↔ ∃ i : Nat, i < n ∧ x = c - i := by
  intro n
  induction n with
  | zero => intro c; simp [descRun]
  | succ m ih =>
      intro c
      simp only [descRun, List.mem_cons, ih (c - 1)]
      constructor
      · rintro (rfl | ⟨i, hi, rfl⟩)
        · exact ⟨0, by omega, by omega⟩
        · exact ⟨i + 1, by omega, by push_cast; omega⟩
      · rintro ⟨i, hi, rfl⟩
        match i with
        | 0 => exact Or.inl (by omega)
        | j + 1 => exact Or.inr ⟨j, by omega, by push_cast; omega⟩

theorem matchLen_descRun_append : ∀ (n : Nat) (c : Int) (l : List Int),
    matchLen (descRun c n ++ l) c = n + matchLen l (c - (n : Int)) := by
  intro n
  induction n with
  | zero => intro c l; simp [descRun]
  | succ m ih =>
      intro c l
      have hunf : descRun c (m + 1) ++ l = c :: (descRun (c - 1) m ++ l) := by
        rw [descRun, List.cons_append]
      rw [hunf, matchLen, if_pos rfl, ih (c - 1) l]
      have hc : c - 1 - (m : Int) = c - ((m + 1 : Nat) : Int) := by push_cast; ring
      rw [hc]
      omega

theorem ascRun_snoc : ∀ (n : Nat) (a : Int),
    ascRun a n ++ [a + (n : Int)] = ascRun a (n + 1) := by
  intro n
  induction n with
  | zero => intro a; simp [ascRun]
  | succ m ih =>
      intro a
      have hunf : ascRun a (m + 1) ++ [a + ((m + 1 : Nat) : Int)] =
          a :: (ascRun (a + 1) m ++ [(a + 1) + (m : Int)]) := by
        rw [ascRun, List.cons_append]
        have : a + ((m + 1 : Nat) : Int) = (a + 1) + (m : Int) := by push_cast; ring
        rw [this]
      rw [hunf, ih (a + 1)]
      rfl

theorem reverse_descRun : ∀ (n : Nat) (c : Int),
    (descRun c n).reverse = ascRun (c - (n : Int) + 1) n := by
  intro n
  induction n with
  | zero => intro c; simp [descRun, ascRun]
  | succ m ih =>
      intro c
      rw [descRun, List.reverse_cons, ih (c - 1)]
      have h1 : c - 1 - (m : Int) + 1 = c - ((m + 1 : Nat) : Int) + 1 := by
        push_cast; ring
      have h2 : c = (c - ((m + 1 : Nat) : Int) + 1) + (m : Int) := by
        push_cast; ring
      rw [h1]
      rw [show ([c] : List Int) =
          [(c - ((m + 1 : Nat) : Int) + 1) + (m : Int)] from by rw [← h2]]
      exact ascRun_snoc m _

theorem contLen_ascRun_ge : ∀ (n : Nat) (a : Int) (l : List Int),
    n ≤ contLen (ascRun (a + 1) n ++ l) a := by
  intro n
  induction n with
  | zero => intro a l; omega
  | succ m ih =>
      intro a l
      have hunf : ascRun (a + 1) (m + 1) ++ l =
          (a + 1) :: (ascRun (a + 1 + 1) m ++ l) := by
        rw [ascRun, List.cons_append]
      rw [hunf, contLen, if_pos rfl]
      have := ih (a + 1) l
      omega

theorem maxRunFrom_ge : ∀ (xs : List Int) (d : Int) (ys : List Int),
    1 + contLen ys d ≤ maxRunFrom (xs ++ d :: ys) := by
  intro xs
  induction xs with
  | nil =>
      intro d ys
      rw [List.nil_append, maxRunFrom]
      omega
  | cons x xs ih =>
      intro d ys
      rw [List.cons_append, maxRunFrom]
      have := ih d ys
      omega

theorem longestWalk_ge_lg : ∀ (l : List Int) (p : Int) (cur lg : Nat),
    lg ≤ longestWalk l p cur lg := by
  intro l
  induction l with
  | nil => intro p cur lg; simp [longestWalk]
  | cons d rest ih =>
      intro p cur lg
      by_cases h : d - p = 1
      · rw [longestWalk, if_pos h]
        have := ih d (cur + 1) (max lg (cur + 1))
        omega
      · rw [longestWalk, if_neg h]
        exact ih d 1 lg

theorem longestWalk_ge_cur_contLen : ∀ (l : List Int) (p : Int) (cur lg : Nat),
    cur ≤ lg → cur + contLen l p ≤ longestWalk l p cur lg := by
  intro l
  induction l with
  | nil => intro p cur lg h; rw [longestWalk, contLen]; omega
  | cons d rest ih =>
      intro p cur lg h
      by_cases hd : d = p + 1
      · have hd1 : d - p = 1 := by omega
        rw [longestWalk, if_pos hd1, contLen, if_pos hd]
        have := ih d (cur + 1) (max lg (cur + 1)) (le_max_right _ _)
        omega
      · have hd1 : ¬ d - p = 1 := by omega
        rw [longestWalk, if_neg hd1, contLen, if_neg hd]
        have := longestWalk_ge_lg rest d 1 lg
        omega

theorem longestWalk_ge_maxRunFrom : ∀ (l : List Int) (p : Int) (cur lg : Nat),
    1 ≤ cur → cur ≤ lg → maxRunFrom l ≤ longestWalk l p cur lg := by
  intro l
  induction l with
  | nil => intro p cur lg _ _; rw [longestWalk, maxRunFrom]; omega
  | cons d rest ih =>
      intro p cur lg h1 h2
      by_cases hd : d = p + 1
      · have hd1 : d - p = 1 := by omega
        rw [longestWalk, if_pos hd1, maxRunFrom]
        have ha := ih d (cur + 1) (max lg (cur + 1)) (by omega) (le_max_right _ _)
        have hb := longestWalk_ge_cur_contLen rest d (cur + 1)
          (max lg (cur + 1)) (le_max_right _ _)
        omega
      · have hd1 : ¬ d - p = 1 := by omega
        rw [longestWalk, if_neg hd1, maxRunFrom]
        have ha := ih d 1 lg (by omega) (by omega)
        have hb := longestWalk_ge_cur_contLen rest d 1 lg (by omega)
        omega

theorem longestWalk_eq_runsFrom : ∀ (l : List Int) (p : Int) (cur lg : Nat),
    1 ≤ cur → cur ≤ lg →
    longestWalk l p cur lg = max lg (runsFrom l p cur) := by
  intro l
  induction l with
  | nil => intro p cur lg _ _; rw [longestWalk, runsFrom]; omega
  | cons d rest ih =>
      intro p cur lg h1 h2
      by_cases hd : d - p = 1
      · rw [longestWalk, if_pos hd, runsFrom, if_pos hd]
        rw [ih d (cur + 1) (max lg (cur + 1)) (by omega) (le_max_right _ _)]
        omega
      · rw [longestWalk, if_neg hd, runsFrom, if_neg hd]
        rw [ih d 1 lg (by omega) (by omega)]
        omega

theorem sortDesc_perm (u : List Int) : (sortDesc u).Perm u :=
  List.perm_insertionSort _ u

theorem sortAsc_perm (u : List Int) : (sortAsc u).Perm u :=
  List.perm_insertionSort _ u

theorem sortDesc_sorted (u : List Int) :
    List.Sorted (fun a b : Int => b ≤ a) (sortDesc u) :=
  List.sorted_insertionSort _ u

theorem sortAsc_sorted (u : List Int) :
    List.Sorted (fun a b : Int => a ≤ b) (sortAsc u) :=
  List.sorted_insertionSort _ u

theorem sortDesc_pairwise_gt (u : List Int) (h : u.Nodup) :
    List.Pairwise (fun a b : Int => b < a) (sortDesc u) := by
  have hn : (sortDesc u).Nodup := ((sortDesc_perm u).symm).nodup h
  have := (sortDesc_sorted u).and hn
  exact this.imp (fun hx => lt_of_le_of_ne hx.1 (Ne.symm hx.2))

theorem sortAsc_eq_reverse_sortDesc (u : List Int) :
    sortAsc u = (sortDesc u).reverse := by
  refine List.eq_of_perm_of_sorted ?_ (sortAsc_sorted u) ?_
  · exact (sortAsc_perm u).trans
      ((sortDesc_perm u).symm.trans (List.reverse_perm (sortDesc u)).symm)
  · exact List.pairwise_reverse.mpr (sortDesc_sorted u)

theorem sortDesc_head_max (u : List Int) (d0 : Int) (rest : List Int)
    (h : sortDesc u = d0 :: rest) : d0 ∈ u ∧ ∀ x ∈ u, x ≤ d0 := by
  constructor
  · have : d0 ∈ sortDesc u := by rw [h]; exact List.mem_cons_self d0 rest
    exact (sortDesc_perm u).mem_iff.mp this
  · intro x hx
    have hx2 : x ∈ sortDesc u := (sortDesc_perm u).mem_iff.mpr hx
    rw [h] at hx2
    rcases List.mem_cons.mp hx2 with rfl | hx3
    · exact le_refl x
    · have hs := sortDesc_sorted u
      rw [h] at hs
      exact List.rel_of_sorted_cons hs x hx3

theorem sortDesc_ne_nil (u : List Int) (h : u ≠ []) : sortDesc u ≠ [] := by
  intro hnil
  have hp := sortDesc_perm u
  rw [hnil] at hp
  exact h hp.nil_eq.symm

/-- Unfolding equation for `calculate_streak` in terms of `sortDesc`. -/
theorem calculate_streak_eq (entries : List Int) (e : Int) :
    calculate_streak entries e =
      if entries.isEmpty then 0
      else
        match sortDesc ((entries.map toDate).dedup) with
        | [] => 0
        | d0 :: rest =>
            if d0 < toDate e - 1 then 0 else streakWalk (d0 :: rest) d0 0 := rfl

/-- Unfolding equation for `calculate_longest_streak` in terms of `sortAsc`. -/
theorem calculate_longest_streak_eq (entries : List Int) :
    calculate_longest_streak entries =
      if entries.isEmpty then 0
      else
        match sortAsc ((entries.map toDate).dedup) with
        | [] => 0
        | d0 :: rest => longestWalk rest d0 1 1 := rfl

/-- In the non-stale branch, the current streak is the matching-prefix length
of the descending distinct-date list. -/
theorem calculate_streak_matchLen (entries : List Int) (e : Int)
    (d0 : Int) (rest : List Int) (hne : entries ≠ [])
    (hD : sortDesc ((entries.map toDate).dedup) = d0 :: rest)
    (hstale : ¬ d0 < toDate e - 1) :
    calculate_streak entries e = matchLen (d0 :: rest) d0 := by
  rw [calculate_streak_eq, if_neg (by simpa using hne), hD]
  show (if d0 < toDate e - 1 then 0 else streakWalk (d0 :: rest) d0 0) =
    matchLen (d0 :: rest) d0
  rw [if_neg hstale]
  have hnodup : ((entries.map toDate).dedup).Nodup := List.nodup_dedup _
  have hpw := sortDesc_pairwise_gt _ hnodup
  rw [hD] at hpw
  have hmax := sortDesc_head_max _ d0 rest hD
  have hle : ∀ x ∈ d0 :: rest, x ≤ d0 := by
    intro x hx
    have : x ∈ sortDesc ((entries.map toDate).dedup) := by rw [hD]; exact hx
    exact hmax.2 x ((sortDesc_perm _).mem_iff.mp this)
  rw [streakWalk_eq_matchLen (d0 :: rest) d0 0 hpw hle]
  omega

theorem reverse_ascRun (n : Nat) (x : Int) :
    (ascRun x n).reverse = descRun (x + (n : Int) - 1) n := by
  have h := reverse_descRun n (x + (n : Int) - 1)
  have hx : x + (n : Int) - 1 - (n : Int) + 1 = x := by ring
  rw [hx] at h
  rw [← h, List.reverse_reverse]

theorem mem_ascRun {x : Int} : ∀ (n : Nat) (a : Int),
    x ∈ ascRun a n ↔ ∃ i : Nat, i < n ∧ x = a + i := by
  intro n
  induction n with
  | zero => intro a; simp [ascRun]
  | succ m ih =>
      intro a
      rw [ascRun, List.mem_cons, ih (a + 1)]
      constructor
      · rintro (rfl | ⟨i, hi, rfl⟩)
        · exact ⟨0, by omega, by omega⟩
        · exact ⟨i + 1, by omega, by push_cast; omega⟩
      · rintro ⟨i, hi, rfl⟩
        match i with
        | 0 => exact Or.inl (by omega)
        | j + 1 => exact Or.inr ⟨j, by omega, by push_cast; omega⟩

theorem pairwise_lt_ascRun : ∀ (n : Nat) (a : Int),
    List.Pairwise (fun x y : Int => x < y) (ascRun a n) := by
  intro n
  induction n with
  | zero => intro a; simp [ascRun]
  | succ m ih =>
      intro a
      rw [ascRun, List.pairwise_cons]
      refine ⟨?_, ih (a + 1)⟩
      intro x hx
      obtain ⟨i, _, rfl⟩ := (mem_ascRun m (a + 1)).mp hx
      omega

/-- The whole longest-streak scan dominates every ascending run length. -/
theorem maxRunFrom_ge_run (xs : List Int) (b : Int) (m : Nat) :
    m + 1 ≤ maxRunFrom (xs ++ ascRun b (m + 1)) := by
  have h1 : ascRun b (m + 1) = b :: ascRun (b + 1) m := rfl
  rw [h1]
  have h2 := maxRunFrom_ge xs b (ascRun (b + 1) m)
  have h3 := contLen_ascRun_ge m b []
  rw [List.append_nil] at h3
  omega

theorem longestWalk_head (a0 : Int) (restA : List Int) :
    maxRunFrom (a0 :: restA) ≤ longestWalk restA a0 1 1 := by
  rw [maxRunFrom]
  have h1 := longestWalk_ge_cur_contLen restA a0 1 1 (le_refl 1)
  have h2 := longestWalk_ge_maxRunFrom restA a0 1 1 (le_refl 1) (le_refl 1)
  omega

/-- The longest streak dominates every run of the ascending distinct-date
list. -/
theorem calculate_longest_streak_ge_maxRunFrom (entries : List Int)
    (hne : entries ≠ []) (a0 : Int) (restA : List Int)
    (hA : sortAsc ((entries.map toDate).dedup) = a0 :: restA) :
    maxRunFrom (a0 :: restA) ≤ calculate_longest_streak entries := by
  rw [calculate_longest_streak_eq, if_neg (by simpa using hne), hA]
  exact longestWalk_head a0 restA

theorem sortAsc_ne_nil (u : List Int) (h : u ≠ []) : sortAsc u ≠ [] := by
  intro hnil
  have hp := sortAsc_perm u
  rw [hnil] at hp
  exact h hp.nil_eq.symm

/-- C5: for every list of entry timestamps and every end date, the
longest-streak computation over that list is greater than or equal to the
current-streak computation over the same list with that end date. -/
theorem c5_longest_streak_ge_current_streak (entries : List Int)
    (end_date : Int) :
    calculate_streak entries end_date ≤ calculate_longest_streak entries := by
  by_cases hne : entries = []
  · subst hne
    simp [calculate_streak]
  · have hu_ne : (entries.map toDate).dedup ≠ [] := by
      rw [ne_eq, List.dedup_eq_nil, List.map_eq_nil_iff]
      exact hne
    cases hD : sortDesc ((entries.map toDate).dedup) with
    | nil => exact absurd hD (sortDesc_ne_nil _ hu_ne)
    | cons d0 rest =>
        by_cases hstale : d0 < toDate end_date - 1
        · rw [calculate_streak_eq, if_neg (by simpa using hne), hD]
          show (if d0 < toDate end_date - 1 then 0
            else streakWalk (d0 :: rest) d0 0) ≤ _
          rw [if_pos hstale]
          exact Nat.zero_le _
        · rw [calculate_streak_matchLen entries end_date d0 rest hne hD hstale]
          obtain ⟨tail, hdec, _⟩ := matchLen_decomp (d0 :: rest) d0
          have hk1 : 1 ≤ matchLen (d0 :: rest) d0 := by
            rw [matchLen, if_pos rfl]; omega
          set k := matchLen (d0 :: rest) d0 with hk
          obtain ⟨m, hm⟩ : ∃ m, k = m + 1 := ⟨k - 1, by omega⟩
          have hA : sortAsc ((entries.map toDate).dedup) =
              tail.reverse ++ ascRun (d0 - (k : Int) + 1) k := by
            rw [sortAsc_eq_reverse_sortDesc, hD, hdec, List.reverse_append,
              reverse_descRun]
          cases hAshape : sortAsc ((entries.map toDate).dedup) with
          | nil => exact absurd hAshape (sortAsc_ne_nil _ hu_ne)
          | cons a0 restA =>
              have h1 := calculate_longest_streak_ge_maxRunFrom entries hne a0
                restA hAshape
              have h2 : m + 1 ≤ maxRunFrom (a0 :: restA) := by
                rw [← hAshape, hA, hm]
                exact maxRunFrom_ge_run _ _ m
              omega

theorem runsFrom_ascRun_append : ∀ (n : Nat) (p : Int) (cur : Nat) (l : List Int),
    runsFrom (ascRun (p + 1) n ++ l) p cur =
      if n = 0 then runsFrom l p cur
      else max (cur + n) (runsFrom l (p + (n : Int)) (cur + n)) := by
  intro n
  induction n with
  | zero => intro p cur l; simp [ascRun]
  | succ m ih =>
      intro p cur l
      have hunf : ascRun (p + 1) (m + 1) ++ l =
          (p + 1) :: (ascRun (p + 1 + 1) m ++ l) := by
        rw [ascRun, List.cons_append]
      rw [hunf, runsFrom, if_pos (by omega : (p + 1) - p = 1)]
      rw [ih (p + 1) (cur + 1) l]
      by_cases hm : m = 0
      · subst hm
        rw [if_pos rfl, if_neg (Nat.succ_ne_zero 0)]
        norm_num
      · rw [if_neg hm, if_neg (Nat.succ_ne_zero m)]
        have hpc : p + 1 + (m : Int) = p + ((m + 1 : Nat) : Int) := by
          push_cast; ring
        have hcc : cur + 1 + m = cur + (m + 1) := by omega
        rw [hpc, hcc]
        omega

theorem sortDesc_head_of_max (entries : List Int) (d0 h0 : Int)
    (rest : List Int)
    (hD : sortDesc ((entries.map toDate).dedup) = h0 :: rest)
    (hmem : d0 ∈ entries.map toDate)
    (hub : ∀ t ∈ entries, toDate t ≤ d0) : h0 = d0 := by
  have hmax := sortDesc_head_max _ h0 rest hD
  have h1 : d0 ≤ h0 := hmax.2 d0 (List.mem_dedup.mpr hmem)
  have h2 : h0 ≤ d0 := by
    obtain ⟨t, ht, heq⟩ := List.mem_map.mp (List.mem_dedup.mp hmax.1)
    rw [← heq]
    exact hub t ht
  omega

/-- C4: the current-streak computation returns 0 on an empty list, returns 0
when the most recent distinct entry date is more than 1 day before the end
date, and otherwise returns the length of the maximal run of consecutive
calendar dates walking downward from the most recent distinct date, stopping
at the first gap (every date down to the result is present, the next one is
absent). -/
theorem c4_current_streak_characterization (entries : List Int)
    (end_date : Int) :
    (entries = [] → calculate_streak entries end_date = 0)
    ∧ (∀ d0 : Int, d0 ∈ entries.map toDate →
        (∀ t ∈ entries, toDate t ≤ d0) →
        d0 < toDate end_date - 1 → calculate_streak entries end_date = 0)
    ∧ (∀ d0 : Int, d0 ∈ entries.map toDate →
        (∀ t ∈ entries, toDate t ≤ d0) →
        ¬ d0 < toDate end_date - 1 →
        (∀ i : Nat, i < calculate_streak entries end_date →
          (d0 - (i : Int)) ∈ entries.map toDate)
        ∧ (d0 - (calculate_streak entries end_date : Int)) ∉
            entries.map toDate) := by
  refine ⟨?_, ?_, ?_⟩
  · intro h; subst h; rfl
  · intro d0 hmem hub hstale
    have hne : entries ≠ [] := by intro h; subst h; simp at hmem
    have hu_ne : (entries.map toDate).dedup ≠ [] := by
      rw [ne_eq, List.dedup_eq_nil, List.map_eq_nil_iff]; exact hne
    cases hD : sortDesc ((entries.map toDate).dedup) with
    | nil => exact absurd hD (sortDesc_ne_nil _ hu_ne)
    | cons h0 rest =>
        have hh0 : h0 = d0 := sortDesc_head_of_max entries d0 h0 rest hD hmem hub
        subst hh0
        rw [calculate_streak_eq, if_neg (by simpa using hne), hD]
        show (if h0 < toDate end_date - 1 then 0
          else streakWalk (h0 :: rest) h0 0) = 0
        rw [if_pos hstale]
  · intro d0 hmem hub hstale
    have hne : entries ≠ [] := by intro h; subst h; simp at hmem
    have hu_ne : (entries.map toDate).dedup ≠ [] := by
      rw [ne_eq, List.dedup_eq_nil, List.map_eq_nil_iff]; exact hne
    cases hD : sortDesc ((entries.map toDate).dedup) with
    | nil => exact absurd hD (sortDesc_ne_nil _ hu_ne)
    | cons h0 rest =>
        have hh0 : h0 = d0 := sortDesc_head_of_max entries d0 h0 rest hD hmem hub
        subst hh0
        rw [calculate_streak_matchLen entries end_date h0 rest hne hD hstale]
        obtain ⟨tail, hdec, hhead⟩ := matchLen_decomp (h0 :: rest) h0
        have hk1 : 1 ≤ matchLen (h0 :: rest) h0 := by
          rw [matchLen, if_pos rfl]; omega
        set k := matchLen (h0 :: rest) h0 with hkk
        have hmemiff : ∀ x : Int, x ∈ h0 :: rest ↔ x ∈ entries.map toDate := by
          intro x
          rw [← hD, (sortDesc_perm _).mem_iff, List.mem_dedup]
        constructor
        · intro i hi
          have hmem1 : (h0 - (i : Int)) ∈ descRun h0 k :=
            (mem_descRun k h0).mpr ⟨i, hi, rfl⟩
          have hmem2 : (h0 - (i : Int)) ∈ h0 :: rest := by
            rw [hdec]; exact List.mem_append_left _ hmem1
          exact (hmemiff _).mp hmem2
        · intro hcon
          have hx : (h0 - (k : Int)) ∈ h0 :: rest := (hmemiff _).mpr hcon
          rw [hdec] at hx
          rcases List.mem_append.mp hx with hx1 | hx2
          · obtain ⟨i, hi, heq⟩ := (mem_descRun k h0).mp hx1
            omega
          · have hnodup : ((entries.map toDate).dedup).Nodup :=
              List.nodup_dedup _
            have hpw := sortDesc_pairwise_gt _ hnodup
            rw [hD, hdec] at hpw
            have hcross := (List.pairwise_append.mp hpw).2.2
            have hlast : (h0 - ((k - 1 : Nat) : Int)) ∈ descRun h0 k :=
              (mem_descRun k h0).mpr ⟨k - 1, by omega, rfl⟩
            rcases hhead with htl | ⟨hh, tt, htt, hne2⟩
            · rw [htl] at hx2; simp at hx2
            · rw [htt] at hx2
              rcases List.mem_cons.mp hx2 with heq | hx3
              · exact hne2 heq.symm
              · have hwithin := (List.pairwise_append.mp hpw).2.1
                rw [htt] at hwithin
                have hgt := (List.pairwise_cons.mp hwithin).1 _ hx3
                have hh_mem : hh ∈ tail := by
                  rw [htt]; exact List.mem_cons_self _ _
                have hh_lt := hcross _ hlast _ hh_mem
                omega

theorem sortDesc_eq_of_perm (u l : List Int) (hp : u.Perm l)
    (hs : List.Pairwise (fun a b : Int => b ≤ a) l) : sortDesc u = l :=
  List.eq_of_perm_of_sorted ((sortDesc_perm u).trans hp) (sortDesc_sorted u) hs

theorem sortAsc_eq_of_perm (u l : List Int) (hp : u.Perm l)
    (hs : List.Pairwise (fun a b : Int => a ≤ b) l) : sortAsc u = l :=
  List.eq_of_perm_of_sorted ((sortAsc_perm u).trans hp) (sortAsc_sorted u) hs

/-- The longest-streak scan value of a run that does not continue the
previous element. -/
theorem runsFrom_isolated_run (q p : Int) (cur b' : Nat)
    (hq : ¬ q - p = 1) : runsFrom (ascRun q (b' + 1)) p cur = b' + 1 := by
  have h1 : ascRun q (b' + 1) = q :: ascRun (q + 1) b' := rfl
  rw [h1, runsFrom, if_neg hq]
  have h2 : ascRun (q + 1) b' = ascRun (q + 1) b' ++ [] :=
    (List.append_nil _).symm
  rw [h2, runsFrom_ascRun_append b' q 1 []]
  by_cases hb : b' = 0
  · subst hb
    rw [if_pos rfl, runsFrom]
    omega
  · rw [if_neg hb, runsFrom]
    omega

/-- C6: a distinct-date set of exactly two consecutive runs of lengths `a`
(earlier) and `b` (later) separated by a gap of exactly 2 missing days, with
the later run ending on the window end date, gives current streak `b` and
longest streak `max a b`. -/
theorem c6_two_runs_gap_two (entries : List Int) (end_date s : Int)
    (a b : Nat) (ha : 1 ≤ a) (hb : 1 ≤ b)
    (hperm : ((entries.map toDate).dedup).Perm
      (ascRun s a ++ ascRun (s + (a : Int) + 2) b))
    (hend : toDate end_date = s + (a : Int) + (b : Int) + 1) :
    calculate_streak entries end_date = b
    ∧ calculate_longest_streak entries = max a b := by
  obtain ⟨a', rfl⟩ : ∃ a', a = a' + 1 := ⟨a - 1, by omega⟩
  obtain ⟨b', rfl⟩ : ∃ b', b = b' + 1 := ⟨b - 1, by omega⟩
  have hne : entries ≠ [] := by
    intro h
    subst h
    simp only [List.map_nil, List.dedup_nil] at hperm
    have := hperm.nil_eq
    rw [show ascRun s (a' + 1) = s :: ascRun (s + 1) a' from rfl,
      List.cons_append] at this
    exact List.cons_ne_nil _ _ this.symm
  have hpwlt : List.Pairwise (fun x y : Int => x < y)
      (ascRun s (a' + 1) ++ ascRun (s + ((a' + 1 : Nat) : Int) + 2) (b' + 1)) := by
    apply List.pairwise_append.mpr
    refine ⟨pairwise_lt_ascRun _ _, pairwise_lt_ascRun _ _, ?_⟩
    intro x hx y hy
    obtain ⟨i, hi, rfl⟩ := (mem_ascRun _ _).mp hx
    obtain ⟨j, hj, rfl⟩ := (mem_ascRun _ _).mp hy
    push_cast
    omega
  have hA : sortAsc ((entries.map toDate).dedup) =
      ascRun s (a' + 1) ++ ascRun (s + ((a' + 1 : Nat) : Int) + 2) (b' + 1) :=
    sortAsc_eq_of_perm _ _ hperm (hpwlt.imp (fun hxy => le_of_lt hxy))
  have hrev : (ascRun s (a' + 1) ++
      ascRun (s + ((a' + 1 : Nat) : Int) + 2) (b' + 1)).reverse =
      descRun (s + (a' : Int) + (b' : Int) + 3) (b' + 1) ++
        descRun (s + (a' : Int)) (a' + 1) := by
    rw [List.reverse_append, reverse_ascRun, reverse_ascRun]
    have e1 : s + ((a' + 1 : Nat) : Int) + 2 + ((b' + 1 : Nat) : Int) - 1 =
        s + (a' : Int) + (b' : Int) + 3 := by push_cast; ring
    have e2 : s + ((a' + 1 : Nat) : Int) - 1 = s + (a' : Int) := by
      push_cast; ring
    rw [e1, e2]
  have hD : sortDesc ((entries.map toDate).dedup) =
      descRun (s + (a' : Int) + (b' : Int) + 3) (b' + 1) ++
        descRun (s + (a' : Int)) (a' + 1) := by
    rw [← hrev]
    apply sortDesc_eq_of_perm
    · exact hperm.trans (List.reverse_perm _).symm
    · exact List.pairwise_reverse.mpr (hpwlt.imp (fun hxy => le_of_lt hxy))
  have hDcons : sortDesc ((entries.map toDate).dedup) =
      (s + (a' : Int) + (b' : Int) + 3) ::
        (descRun (s + (a' : Int) + (b' : Int) + 2) b' ++
          descRun (s + (a' : Int)) (a' + 1)) := by
    rw [hD]
    rw [show descRun (s + (a' : Int) + (b' : Int) + 3) (b' + 1) =
      (s + (a' : Int) + (b' : Int) + 3) ::
        descRun (s + (a' : Int) + (b' : Int) + 3 - 1) b' from rfl]
    rw [show s + (a' : Int) + (b' : Int) + 3 - 1 =
      s + (a' : Int) + (b' : Int) + 2 from by ring]
    rw [List.cons_append]
  have hstale : ¬ (s + (a' : Int) + (b' : Int) + 3 < toDate end_date - 1) := by
    rw [hend]; push_cast; omega
  constructor
  · rw [calculate_streak_matchLen entries end_date _ _ hne hDcons hstale]
    have hre : (s + (a' : Int) + (b' : Int) + 3) ::
        (descRun (s + (a' : Int) + (b' : Int) + 2) b' ++
          descRun (s + (a' : Int)) (a' + 1)) =
        descRun (s + (a' : Int) + (b' : Int) + 3) (b' + 1) ++
          descRun (s + (a' : Int)) (a' + 1) := by
      rw [show descRun (s + (a' : Int) + (b' : Int) + 3) (b' + 1) =
        (s + (a' : Int) + (b' : Int) + 3) ::
          descRun (s + (a' : Int) + (b' : Int) + 3 - 1) b' from rfl]
      rw [show s + (a' : Int) + (b' : Int) + 3 - 1 =
        s + (a' : Int) + (b' : Int) + 2 from by ring]
      rw [List.cons_append]
    rw [hre, matchLen_descRun_append (b' + 1) _ _]
    rw [show descRun (s + (a' : Int)) (a' + 1) =
      (s + (a' : Int)) :: descRun (s + (a' : Int) - 1) a' from rfl]
    rw [matchLen, if_neg (by push_cast; omega)]
  · rw [calculate_longest_streak_eq, if_neg (by simpa using hne), hA]
    rw [show ascRun s (a' + 1) ++
        ascRun (s + ((a' + 1 : Nat) : Int) + 2) (b' + 1) =
      s :: (ascRun (s + 1) a' ++
        ascRun (s + ((a' + 1 : Nat) : Int) + 2) (b' + 1)) from by
      rw [show ascRun s (a' + 1) = s :: ascRun (s + 1) a' from rfl,
        List.cons_append]]
    show longestWalk (ascRun (s + 1) a' ++
      ascRun (s + ((a' + 1 : Nat) : Int) + 2) (b' + 1)) s 1 1 = _
    rw [longestWalk_eq_runsFrom _ _ _ _ (le_refl 1) (le_refl 1)]
    rw [runsFrom_ascRun_append a' s 1 _]
    by_cases ha' : a' = 0
    · subst ha'
      rw [if_pos rfl,
        runsFrom_isolated_run _ _ _ _ (by push_cast; omega)]
    · rw [if_neg ha',
        runsFrom_isolated_run _ _ _ _ (by push_cast; omega)]
      omega

theorem getCnt_nil (k : Nat) : getCnt [] k = 0 := rfl

theorem getCnt_cons (it : TopEmotionItem) (l : List TopEmotionItem) (k : Nat) :
    getCnt (it :: l) k = if it.curriculum_id = k then it.count else getCnt l k := by
  by_cases h : it.curriculum_id = k
  · rw [getCnt, List.find?_cons_of_pos _ (by simpa using h), if_pos h]
    rfl
  · rw [getCnt, List.find?_cons_of_neg _ (by simpa using h), if_neg h]
    rfl

theorem getCnt_eq_zero_of_absent (l : List TopEmotionItem) (k : Nat)
    (h : ∀ it ∈ l, ¬ it.curriculum_id = k) : getCnt l k = 0 := by
  rw [getCnt, List.find?_eq_none.mpr (by simpa using h)]
  rfl

theorem getCnt_append_absent (l : List TopEmotionItem) (x : TopEmotionItem)
    (k : Nat) (h : ∀ it ∈ l, ¬ it.curriculum_id = k) :
    getCnt (l ++ [x]) k = if x.curriculum_id = k then x.count else 0 := by
  induction l with
  | nil => rw [List.nil_append, getCnt_cons, getCnt_nil]
  | cons y l ih =>
      rw [List.cons_append, getCnt_cons,
        if_neg (h y (List.mem_cons_self y l))]
      exact ih (fun it hit => h it (List.mem_cons_of_mem y hit))

theorem getCnt_append_other (l : List TopEmotionItem) (x : TopEmotionItem)
    (k : Nat) (h : ¬ x.curriculum_id = k) :
    getCnt (l ++ [x]) k = getCnt l k := by
  induction l with
  | nil => rw [List.nil_append, getCnt_cons, if_neg h, getCnt_nil]
  | cons y l ih =>
      rw [List.cons_append, getCnt_cons, getCnt_cons, ih]

theorem getCnt_map_bump (l : List TopEmotionItem) (rid n k : Nat) :
    getCnt (l.map (fun it =>
      if it.curriculum_id == rid then { it with count := it.count + n }
      else it)) k =
    getCnt l k +
      (if rid = k ∧ ∃ it ∈ l, it.curriculum_id = k then n else 0) := by
  induction l with
  | nil => simp [getCnt_nil]
  | cons y l ih =>
      rw [List.map_cons]
      by_cases hy : y.curriculum_id = k
      · by_cases hr : rid = k
        · have hbeq : (y.curriculum_id == rid) = true := by
            subst hr; simpa using hy
          have hfy : (if (y.curriculum_id == rid) = true
              then { y with count := y.count + n } else y) =
              { y with count := y.count + n } := if_pos hbeq
          rw [hfy, getCnt_cons]
          have hcu : ({ y with count := y.count + n } :
              TopEmotionItem).curriculum_id = y.curriculum_id := rfl
          rw [hcu, if_pos hy, getCnt_cons, if_pos hy,
            if_pos ⟨hr, y, List.mem_cons_self y l, hy⟩]
        · have hne : y.curriculum_id ≠ rid := by
            intro h; exact hr (h ▸ hy)
          have hfy : (if (y.curriculum_id == rid) = true
              then { y with count := y.count + n } else y) = y :=
            if_neg (by simpa using hne)
          rw [hfy, getCnt_cons, if_pos hy, getCnt_cons, if_pos hy]
          rw [if_neg (fun hc => hr hc.1)]
          omega
      · have hid : (if (y.curriculum_id == rid) = true
            then { y with count := y.count + n } else y).curriculum_id =
            y.curriculum_id := by
          by_cases hb : (y.curriculum_id == rid) = true
          · rw [if_pos hb]
          · rw [if_neg hb]
        rw [getCnt_cons, hid, if_neg hy, getCnt_cons, if_neg hy, ih]
        have hexiff : (∃ it ∈ y :: l, it.curriculum_id = k) ↔
            (∃ it ∈ l, it.curriculum_id = k) := by
          constructor
          · rintro ⟨it, hmem, hk⟩
            rcases List.mem_cons.mp hmem with rfl | hmem2
            · exact absurd hk hy
            · exact ⟨it, hmem2, hk⟩
          · rintro ⟨it, hmem, hk⟩
            exact ⟨it, List.mem_cons_of_mem y hmem, hk⟩
        by_cases hcond : rid = k ∧ ∃ it ∈ l, it.curriculum_id = k
        · rw [if_pos hcond, if_pos ⟨hcond.1, hexiff.mpr hcond.2⟩]
        · rw [if_neg hcond, if_neg (fun hc => hcond ⟨hc.1, hexiff.mp hc.2⟩)]

theorem getCnt_bumpEmotion (counts : List TopEmotionItem)
    (row : Curriculum × Nat) (k : Nat) :
    getCnt (bumpEmotion counts row) k =
      getCnt counts k + (if row.1.id = k then row.2 else 0) := by
  unfold bumpEmotion
  by_cases hany : counts.any (fun it => it.curriculum_id == row.1.id)
  · rw [if_pos hany, getCnt_map_bump]
    have hex : ∃ it ∈ counts, it.curriculum_id = row.1.id := by
      simpa using hany
    by_cases hk : row.1.id = k
    · subst hk
      rw [if_pos ⟨rfl, hex⟩, if_pos rfl]
    · rw [if_neg (fun hc => hk hc.1), if_neg hk]
  · rw [if_neg hany]
    have habs : ∀ it ∈ counts, ¬ it.curriculum_id = row.1.id := by
      simpa using hany
    by_cases hk : row.1.id = k
    · subst hk
      rw [getCnt_append_absent counts _ _ habs, if_pos rfl,
        getCnt_eq_zero_of_absent counts _ habs]
      exact (Nat.zero_add _).symm
    · rw [getCnt_append_other counts _ _ (by simpa using hk), if_neg hk]
      omega

theorem getCnt_accumulate (results : List (Curriculum × Nat)) :
    ∀ (counts : List TopEmotionItem) (k : Nat),
    getCnt (accumulate_emotion_counts counts results) k =
      getCnt counts k + sumCounts results k := by
  induction results with
  | nil =>
      intro counts k
      rw [sumCounts]
      rfl
  | cons r rs ih =>
      intro counts k
      have hstep : accumulate_emotion_counts counts (r :: rs) =
          accumulate_emotion_counts (bumpEmotion counts r) rs := rfl
      rw [hstep, ih, getCnt_bumpEmotion, sumCounts]
      omega

theorem groups_cons_pos (c : Curriculum) (rest : List Curriculum)
    (cnt : Nat → Nat) (h : 0 < cnt c.id) :
    (c :: rest).filterMap (fun c =>
      if 0 < cnt c.id then some (c, cnt c.id) else none) =
    (c, cnt c.id) :: rest.filterMap (fun c =>
      if 0 < cnt c.id then some (c, cnt c.id) else none) := by
  have hfc : (if 0 < cnt c.id then some (c, cnt c.id) else none) =
      some (c, cnt c.id) := if_pos h
  simp only [List.filterMap_cons, hfc]

theorem groups_cons_neg (c : Curriculum) (rest : List Curriculum)
    (cnt : Nat → Nat) (h : ¬ 0 < cnt c.id) :
    (c :: rest).filterMap (fun c =>
      if 0 < cnt c.id then some (c, cnt c.id) else none) =
    rest.filterMap (fun c =>
      if 0 < cnt c.id then some (c, cnt c.id) else none) := by
  have hfc : (if 0 < cnt c.id then some (c, cnt c.id) else none) = none :=
    if_neg h
  simp only [List.filterMap_cons, hfc]

theorem sumCounts_groups_absent : ∀ (cs : List Curriculum) (cnt : Nat → Nat)
    (k : Nat), k ∉ cs.map (fun c => c.id) →
    sumCounts (cs.filterMap (fun c =>
      if 0 < cnt c.id then some (c, cnt c.id) else none)) k = 0 := by
  intro cs
  induction cs with
  | nil => intro cnt k _; rfl
  | cons c rest ih =>
      intro cnt k hk
      have hkc : ¬ c.id = k := by
        intro h
        exact hk (by rw [List.map_cons, ← h]; exact List.mem_cons_self _ _)
      have hkr : k ∉ rest.map (fun c => c.id) := by
        intro h
        exact hk (by rw [List.map_cons]; exact List.mem_cons_of_mem _ h)
      by_cases h : 0 < cnt c.id
      · rw [groups_cons_pos c rest cnt h, sumCounts, if_neg hkc,
          ih cnt k hkr]
      · rw [groups_cons_neg c rest cnt h]
        exact ih cnt k hkr

theorem sumCounts_groups : ∀ (cs : List Curriculum) (cnt : Nat → Nat)
    (k : Nat), (cs.map (fun c => c.id)).Nodup → k ∈ cs.map (fun c => c.id) →
    sumCounts (cs.filterMap (fun c =>
      if 0 < cnt c.id then some (c, cnt c.id) else none)) k = cnt k := by
  intro cs
  induction cs with
  | nil => intro cnt k _ hk; simp at hk
  | cons c rest ih =>
      intro cnt k hnd hk
      rw [List.map_cons] at hnd hk
      have hnd2 := List.pairwise_cons.mp hnd
      by_cases hck : c.id = k
      · have habsent : k ∉ rest.map (fun c => c.id) := by
          intro hmem
          exact (hnd2.1 k hmem) hck
        by_cases h : 0 < cnt c.id
        · rw [groups_cons_pos c rest cnt h, sumCounts,
            if_pos hck, sumCounts_groups_absent rest cnt k habsent, hck]
          omega
        · rw [groups_cons_neg c rest cnt h,
            sumCounts_groups_absent rest cnt k habsent, ← hck]
          omega
      · have hkr : k ∈ rest.map (fun c => c.id) := by
          rcases List.mem_cons.mp hk with h | h
          · exact absurd h.symm hck
          · exact h
        by_cases h : 0 < cnt c.id
        · rw [groups_cons_pos c rest cnt h, sumCounts,
            if_neg hck, ih cnt k hnd2.2 hkr]
          omega
        · rw [groups_cons_neg c rest cnt h]
          exact ih cnt k hnd2.2 hkr

theorem keys_bumpEmotion_nodup (counts : List TopEmotionItem)
    (row : Curriculum × Nat)
    (h : (counts.map (fun x => x.curriculum_id)).Nodup) :
    ((bumpEmotion counts row).map (fun x => x.curriculum_id)).Nodup := by
  unfold bumpEmotion
  by_cases hany : counts.any (fun it => it.curriculum_id == row.1.id)
  · rw [if_pos hany]
    have hkeys : (counts.map (fun it =>
        if (it.curriculum_id == row.1.id) = true
        then { it with count := it.count + row.2 } else it)).map
          (fun x => x.curriculum_id) =
        counts.map (fun x => x.curriculum_id) := by
      rw [List.map_map]
      apply List.map_congr_left
      intro it _
      by_cases hb : (it.curriculum_id == row.1.id) = true
      · simp only [Function.comp_apply, if_pos hb]
      · simp only [Function.comp_apply, if_neg hb]
    rw [hkeys]
    exact h
  · rw [if_neg hany]
    have habs : ∀ it ∈ counts, ¬ it.curriculum_id = row.1.id := by
      simpa using hany
    rw [List.map_append]
    apply List.nodup_append.mpr
    refine ⟨h, List.nodup_singleton _, ?_⟩
    intro a ha hb
    obtain ⟨it, hit, rfl⟩ := List.mem_map.mp ha
    have : it.curriculum_id = row.1.id := by
      simpa using hb
    exact habs it hit this

theorem keys_accumulate_nodup (results : List (Curriculum × Nat)) :
    ∀ counts : List TopEmotionItem,
    (counts.map (fun x => x.curriculum_id)).Nodup →
    ((accumulate_emotion_counts counts results).map
      (fun x => x.curriculum_id)).Nodup := by
  induction results with
  | nil => intro counts h; exact h
  | cons r rs ih =>
      intro counts h
      exact ih (bumpEmotion counts r) (keys_bumpEmotion_nodup counts r h)

theorem find?_of_mem_nodup_keys (l : List TopEmotionItem)
    (it : TopEmotionItem) (hmem : it ∈ l)
    (hnd : (l.map (fun x => x.curriculum_id)).Nodup) :
    l.find? (fun x => x.curriculum_id == it.curriculum_id) = some it := by
  induction l with
  | nil => cases hmem
  | cons y rest ih =>
      rw [List.map_cons] at hnd
      have hnd2 := List.pairwise_cons.mp hnd
      rcases List.mem_cons.mp hmem with rfl | hmem2
      · exact List.find?_cons_of_pos _ (by simp)
      · have hne : ¬ ((fun x : TopEmotionItem =>
            x.curriculum_id == it.curriculum_id) y) = true := by
          simp only [beq_iff_eq]
          intro hEq
          exact (hnd2.1 it.curriculum_id
            (List.mem_map.mpr ⟨it, hmem2, rfl⟩)) hEq
        rw [@List.find?_cons_of_neg TopEmotionItem
          (fun x : TopEmotionItem => x.curriculum_id == it.curriculum_id)
          y rest hne]
        exact ih hmem2 hnd2.2

theorem getCnt_of_mem_nodup_keys (l : List TopEmotionItem)
    (it : TopEmotionItem) (hmem : it ∈ l)
    (hnd : (l.map (fun x => x.curriculum_id)).Nodup) :
    getCnt l it.curriculum_id = it.count := by
  rw [getCnt, find?_of_mem_nodup_keys l it hmem hnd]
  rfl

theorem mem_bumpEmotion_key (counts : List TopEmotionItem)
    (row : Curriculum × Nat) (it : TopEmotionItem)
    (h : it ∈ bumpEmotion counts row) :
    it.curriculum_id ∈ counts.map (fun x => x.curriculum_id)
      ∨ it.curriculum_id = row.1.id := by
  unfold bumpEmotion at h
  by_cases hany : counts.any (fun x => x.curriculum_id == row.1.id)
  · rw [if_pos hany] at h
    obtain ⟨orig, hmem, heq⟩ := List.mem_map.mp h
    left
    have hkey : it.curriculum_id = orig.curriculum_id := by
      rw [← heq]
      by_cases hb : (orig.curriculum_id == row.1.id) = true
      · rw [if_pos hb]
      · rw [if_neg hb]
    rw [hkey]
    exact List.mem_map.mpr ⟨orig, hmem, rfl⟩
  · rw [if_neg hany] at h
    rcases List.mem_append.mp h with h1 | h2
    · exact Or.inl (List.mem_map.mpr ⟨it, h1, rfl⟩)
    · right
      rcases List.mem_singleton.mp h2 with rfl
      rfl

theorem mem_accumulate_key (results : List (Curriculum × Nat)) :
    ∀ (counts : List TopEmotionItem) (it : TopEmotionItem),
    it ∈ accumulate_emotion_counts counts results →
    it.curriculum_id ∈ counts.map (fun x => x.curriculum_id)
      ∨ ∃ r ∈ results, r.1.id = it.curriculum_id := by
  induction results with
  | nil => intro counts it h; exact Or.inl (List.mem_map.mpr ⟨it, h, rfl⟩)
  | cons r rs ih =>
      intro counts it h
      rcases ih (bumpEmotion counts r) it h with h1 | h2
      · obtain ⟨x, hx, hkey⟩ := List.mem_map.mp h1
        rcases mem_bumpEmotion_key counts r x hx with h3 | h4
        · rw [← hkey]
          exact Or.inl h3
        · exact Or.inr ⟨r, List.mem_cons_self r rs, by rw [← hkey, h4]⟩
      · obtain ⟨rr, hrr, hkey⟩ := h2
        exact Or.inr ⟨rr, List.mem_cons_of_mem r hrr, hkey⟩

theorem fst_mem_of_mem_groups (cs : List Curriculum) (cnt : Nat → Nat)
    (r : Curriculum × Nat)
    (h : r ∈ cs.filterMap (fun c =>
      if 0 < cnt c.id then some (c, cnt c.id) else none)) : r.1 ∈ cs := by
  obtain ⟨c, hc, hfc⟩ := List.mem_filterMap.mp h
  by_cases hp : 0 < cnt c.id
  · rw [if_pos hp] at hfc
    cases Option.some.inj hfc
    exact hc
  · rw [if_neg hp] at hfc
    cases hfc

/-- C8: the top-emotions ranking assigns each listed curriculum id the sum of
its primary-reference count and its non-null secondary-reference count over
in-window entries, sorts descending by that combined count, and truncates to
the caller-supplied limit, whose route default is 10 and maximum is 100. -/
theorem c8_top_emotions_combined_ranking (db : DB) (user_id : Nat)
    (start_date end_date : Int) (limit : Nat)
    (hids : (db.curricula.map (fun c => c.id)).Nodup) :
    (topEmotions db user_id start_date end_date limit).length ≤ limit
    ∧ List.Pairwise (fun x y : TopEmotionItem => y.count ≤ x.count)
        (topEmotions db user_id start_date end_date limit)
    ∧ (∀ it ∈ topEmotions db user_id start_date end_date limit,
        it.count =
          (windowEntries db user_id start_date end_date).countP
            (fun j => j.curriculum_id == it.curriculum_id)
          + (windowEntries db user_id start_date end_date).countP
            (fun j => j.secondary_curriculum_id == some it.curriculum_id))
    ∧ topEmotionsDefaultLimit = 10 ∧ topEmotionsMaxLimit = 100 := by
  have htop : topEmotions db user_id start_date end_date limit =
      (List.insertionSort (fun x y : TopEmotionItem => y.count ≤ x.count)
        (accumulate_emotion_counts
          (accumulate_emotion_counts []
            (primaryEmotionGroups db user_id start_date end_date))
          (secondaryEmotionGroups db user_id start_date end_date))).take
        limit := rfl
  refine ⟨?_, ?_, ?_, rfl, rfl⟩
  · rw [htop]
    exact List.length_take_le _ _
  · rw [htop]
    exact List.Pairwise.sublist (List.take_sublist _ _)
      (List.sorted_insertionSort _ _)
  · intro it hit
    rw [htop] at hit
    have hit2 := List.mem_of_mem_take hit
    have hit3 : it ∈ accumulate_emotion_counts
        (accumulate_emotion_counts []
          (primaryEmotionGroups db user_id start_date end_date))
        (secondaryEmotionGroups db user_id start_date end_date) :=
      (List.perm_insertionSort _ _).mem_iff.mp hit2
    have hnd0 : (([] : List TopEmotionItem).map
        (fun x => x.curriculum_id)).Nodup := by simp
    have hnd : ((accumulate_emotion_counts
        (accumulate_emotion_counts []
          (primaryEmotionGroups db user_id start_date end_date))
        (secondaryEmotionGroups db user_id start_date end_date)).map
          (fun x => x.curriculum_id)).Nodup :=
      keys_accumulate_nodup _ _ (keys_accumulate_nodup _ [] hnd0)
    have hcnt := getCnt_of_mem_nodup_keys _ it hit3 hnd
    have hchain : getCnt (accumulate_emotion_counts
        (accumulate_emotion_counts []
          (primaryEmotionGroups db user_id start_date end_date))
        (secondaryEmotionGroups db user_id start_date end_date))
          it.curriculum_id =
        sumCounts (primaryEmotionGroups db user_id start_date end_date)
          it.curriculum_id
        + sumCounts (secondaryEmotionGroups db user_id start_date end_date)
          it.curriculum_id := by
      rw [getCnt_accumulate, getCnt_accumulate, getCnt_nil]
      omega
    have hkey : it.curriculum_id ∈ db.curricula.map (fun c => c.id) := by
      rcases mem_accumulate_key _ _ it hit3 with h1 | h2
      · obtain ⟨x, hx, hk⟩ := List.mem_map.mp h1
        rcases mem_accumulate_key _ [] x hx with h3 | h4
        · simp at h3
        · obtain ⟨r, hr, hid⟩ := h4
          have hrmem : r.1 ∈ db.curricula :=
            fst_mem_of_mem_groups db.curricula
              (fun i => (windowEntries db user_id start_date end_date).countP
                (fun j : Journal => j.curriculum_id == i)) r hr
          rw [← hk, ← hid]
          exact List.mem_map.mpr ⟨r.1, hrmem, rfl⟩
      · obtain ⟨r, hr, hid⟩ := h2
        have hrmem : r.1 ∈ db.curricula :=
          fst_mem_of_mem_groups db.curricula
            (fun i => (windowEntries db user_id start_date end_date).countP
              (fun j : Journal => j.secondary_curriculum_id == some i)) r hr
        rw [← hid]
        exact List.mem_map.mpr ⟨r.1, hrmem, rfl⟩
    have hP : sumCounts (primaryEmotionGroups db user_id start_date end_date)
        it.curriculum_id =
        (windowEntries db user_id start_date end_date).countP
          (fun j => j.curriculum_id == it.curriculum_id) :=
      sumCounts_groups db.curricula
        (fun i => (windowEntries db user_id start_date end_date).countP
          (fun j : Journal => j.curriculum_id == i)) it.curriculum_id hids hkey
    have hS : sumCounts (secondaryEmotionGroups db user_id start_date end_date)
        it.curriculum_id =
        (windowEntries db user_id start_date end_date).countP
          (fun j => j.secondary_curriculum_id == some it.curriculum_id) :=
      sumCounts_groups db.curricula
        (fun i => (windowEntries db user_id start_date end_date).countP
          (fun j : Journal => j.secondary_curriculum_id == some i))
        it.curriculum_id hids hkey
    rw [← hcnt, hchain, hP, hS]

/-- C7: the medicinal trend is the signed difference between the medicinal
ratio over the window and the ratio over the immediately preceding window of
identical duration. -/
theorem c7_medicinal_trend_delta (db : DB) (user_id : Nat)
    (start_date end_date : Int) :
    calculate_medicinal_trend db user_id start_date end_date =
      calculate_medicinal_ratio db user_id start_date end_date
      - calculate_medicinal_ratio db user_id
          (start_date - (end_date - start_date)) start_date := rfl

/-- C9: an accepted `created_at` is timezone-aware and normalized to UTC — a
naive input is read as UTC unchanged, an aware input is converted to the
equivalent UTC instant — and a missing value is rejected by the create
validator. -/
theorem c9_created_at_utc_coercion (d : PyDatetime) :
    coerce_datetime (some d) = some { naive := instantOf d, tz := some 0 }
    ∧ validate_created_at_base (some d) =
        Except.ok { naive := instantOf d, tz := some 0 }
    ∧ validate_created_at_update (some d) =
        some { naive := instantOf d, tz := some 0 }
    ∧ validate_created_at_base none = Except.error "created_at is required"
    ∧ (d.tz = none → instantOf d = d.naive) := by
  have hc : coerce_datetime (some d) =
      some { naive := instantOf d, tz := some 0 } := by
    unfold coerce_datetime instantOf
    cases htz : d.tz with
    | none => simp [htz]
    | some off => simp [htz]
  refine ⟨hc, ?_, ?_, rfl, ?_⟩
  · unfold validate_created_at_base
    rw [hc]
  · unfold validate_created_at_update
    rw [hc]
  · intro h
    unfold instantOf
    rw [h]
    simp

theorem validate_references_error_of_bad (db : DB) (cid : Nat)
    (sec stid : Option Nat)
    (hbad : (db.curricula.find? (fun c => c.id == cid)).isNone = true
      ∨ (∃ s, sec = some s
          ∧ (db.curricula.find? (fun c : Curriculum => c.id == s)).isNone = true)
      ∨ (∃ s, stid = some s
          ∧ (db.strategies.find? (fun st : Strategy => st.id == s)).isNone = true)) :
    validate_references db cid sec stid = Except.error 400 := by
  unfold validate_references
  by_cases h1 : (db.curricula.find? (fun c => c.id == cid)).isNone = true
  · rw [if_pos h1]
  · rw [if_neg h1]
    rcases hbad with hb | ⟨s, hs, hb⟩ | ⟨s, hs, hb⟩
    · exact absurd hb h1
    · subst hs
      rw [if_pos hb]
    · subst hs
      by_cases h2 : (match sec with
          | some s => (db.curricula.find? (fun c : Curriculum => c.id == s)).isNone
          | none => false) = true
      · rw [if_pos h2]
      · rw [if_neg h2, if_pos hb]

theorem validate_references_error_eq (db : DB) (cid : Nat)
    (sec stid : Option Nat) (e : Nat)
    (h : validate_references db cid sec stid = Except.error e) : e = 400 := by
  unfold validate_references at h
  split_ifs at h <;> simp_all

theorem update_journal_eq_found (db : DB) (journal_id : Nat)
    (payload : JournalUpdate) (j0 : Journal)
    (hfind : db.journals.find? (fun j => j.id == journal_id) = some j0) :
    update_journal db journal_id payload =
      if payload.isEmpty then (Except.ok j0, db)
      else
        match validate_references db
            (payload.curriculum_id.getD j0.curriculum_id)
            (payload.secondary_curriculum_id.getD j0.secondary_curriculum_id)
            (payload.strategy_id.getD j0.strategy_id) with
        | Except.error e => (Except.error e, db)
        | Except.ok _ =>
            (Except.ok (applyJournalUpdate j0 payload),
              { db with journals := db.journals.map (fun j =>
                if j.id == journal_id then applyJournalUpdate j0 payload
                else j) }) := by
  unfold update_journal
  rw [hfind]

/-- C10: a journal update leaves the stored row unchanged whenever the
operation errors (404 for a missing id, 400 for a bad reference, validated
before any write), and an empty payload performs no write and returns the
existing row. -/
theorem c10_update_journal_no_partial_writes (db : DB) (journal_id : Nat)
    (payload : JournalUpdate) :
    (∀ e : Nat, (update_journal db journal_id payload).1 = Except.error e →
      (update_journal db journal_id payload).2 = db)
    ∧ (db.journals.find? (fun j => j.id == journal_id) = none →
        update_journal db journal_id payload = (Except.error 404, db))
    ∧ (payload.isEmpty = true →
        ∀ j, db.journals.find? (fun j => j.id == journal_id) = some j →
          update_journal db journal_id payload = (Except.ok j, db))
    ∧ (∀ j, db.journals.find? (fun j => j.id == journal_id) = some j →
        payload.isEmpty = false →
        ((db.curricula.find? (fun c =>
            c.id == payload.curriculum_id.getD j.curriculum_id)).isNone = true
          ∨ (∃ s, payload.secondary_curriculum_id.getD
                j.secondary_curriculum_id = some s
              ∧ (db.curricula.find?
                  (fun c : Curriculum => c.id == s)).isNone = true)
          ∨ (∃ s, payload.strategy_id.getD j.strategy_id = some s
              ∧ (db.strategies.find?
                  (fun st : Strategy => st.id == s)).isNone = true)) →
        update_journal db journal_id payload = (Except.error 400, db)) := by
  cases hfind : db.journals.find? (fun j => j.id == journal_id) with
  | none =>
      have hu : update_journal db journal_id payload = (Except.error 404, db) := by
        unfold update_journal
        rw [hfind]
      refine ⟨fun e _ => by rw [hu], fun _ => hu, ?_, ?_⟩
      · intro _ j hj
        cases hj
      · intro j hj
        cases hj
  | some j0 =>
      by_cases hempty : payload.isEmpty = true
      · have hu : update_journal db journal_id payload = (Except.ok j0, db) := by
          rw [update_journal_eq_found db journal_id payload j0 hfind,
            if_pos hempty]
        refine ⟨?_, ?_, ?_, ?_⟩
        · intro e he
          rw [hu] at he
          cases he
        · intro hnone
          cases hnone
        · intro _ j hj
          rw [hu, Option.some.inj hj]
        · intro j hj hfalse _
          rw [hempty] at hfalse
          cases hfalse
      · cases hval : validate_references db
            (payload.curriculum_id.getD j0.curriculum_id)
            (payload.secondary_curriculum_id.getD j0.secondary_curriculum_id)
            (payload.strategy_id.getD j0.strategy_id) with
        | error e =>
            have he400 : e = 400 := validate_references_error_eq _ _ _ _ _ hval
            have hu : update_journal db journal_id payload =
                (Except.error e, db) := by
              rw [update_journal_eq_found db journal_id payload j0 hfind,
                if_neg hempty, hval]
            refine ⟨fun e2 _ => by rw [hu], ?_, ?_, ?_⟩
            · intro hnone
              cases hnone
            · intro htrue
              exact absurd htrue hempty
            · intro j hj _ _
              rw [hu, he400]
        | ok u =>
            have hu : update_journal db journal_id payload =
                (Except.ok (applyJournalUpdate j0 payload),
                  { db with journals := db.journals.map (fun j =>
                    if j.id == journal_id then applyJournalUpdate j0 payload
                    else j) }) := by
              rw [update_journal_eq_found db journal_id payload j0 hfind,
                if_neg hempty, hval]
            refine ⟨?_, ?_, ?_, ?_⟩
            · intro e he
              rw [hu] at he
              cases he
            · intro hnone
              cases hnone
            · intro htrue
              exact absurd htrue hempty
            · intro j hj _ hbad
              have hjj : j = j0 := Option.some.inj hj.symm
              subst hjj
              exact absurd hval (by
                rw [validate_references_error_of_bad db _ _ _ hbad]
                simp)

theorem get_analytics_overview_eq_found (db : DB) (user_id : Nat)
    (start_date end_date : Int) (e0 : Journal) (rest : List Journal)
    (hE : List.insertionSort (fun a b : Journal => b.created_at ≤ a.created_at)
      (windowEntries db user_id start_date end_date) = e0 :: rest) :
    get_analytics_overview db user_id start_date end_date = Except.ok
      { total_entries := (e0 :: rest).length
        current_streak := calculate_streak
          ((e0 :: rest).map (fun j => j.created_at)) end_date
        avg_frequency :=
          if 0 < timedeltaDays (end_date - start_date) + 1
          then ((e0 :: rest).length : Rat) /
            ((timedeltaDays (end_date - start_date) + 1 : Int) : Rat)
          else 0
        last_check_in := e0.created_at
        medicinal_ratio :=
          calculate_medicinal_ratio db user_id start_date end_date
        medicinal_trend :=
          calculate_medicinal_trend db user_id start_date end_date
        dominant_layer_id :=
          (get_dominant_layer_and_phase db user_id end_date).1
        dominant_phase_id :=
          (get_dominant_layer_and_phase db user_id end_date).2
        unique_emotions := ((windowEntries db user_id start_date end_date).map
          (fun j => j.curriculum_id)).dedup.length
        strategies_used :=
          ((windowEntries db user_id start_date end_date).filterMap
            (fun j => j.strategy_id)).dedup.length
        secondary_emotions_pct :=
          if 0 < (e0 :: rest).length
          then (((windowEntries db user_id start_date end_date).countP
            (fun j => j.secondary_curriculum_id.isSome) : Rat) /
              ((e0 :: rest).length : Rat)) * 100
          else 0 } := by
  unfold get_analytics_overview
  rw [hE]

theorem get_analytics_overview_eq_empty (db : DB) (user_id : Nat)
    (start_date end_date : Int)
    (hE : List.insertionSort (fun a b : Journal => b.created_at ≤ a.created_at)
      (windowEntries db user_id start_date end_date) = []) :
    get_analytics_overview db user_id start_date end_date =
      Except.error 404 := by
  unfold get_analytics_overview
  rw [hE]

/-- C2 (amended): the overview's average frequency is `total_entries`
divided by `days_in_period`, where `days_in_period` is the floored day count
of the datetime difference `(end_date - start_date).days + 1` — not the
calendar-date difference — and 0.0 when that count is not positive. -/
theorem c2_avg_frequency_uses_datetime_delta (db : DB) (user_id : Nat)
    (start_date end_date : Int) (r : AnalyticsOverview)
    (h : get_analytics_overview db user_id start_date end_date =
      Except.ok r) :
    r.total_entries = (windowEntries db user_id start_date end_date).length
    ∧ r.avg_frequency =
        (if 0 < timedeltaDays (end_date - start_date) + 1
         then (r.total_entries : Rat) /
           ((timedeltaDays (end_date - start_date) + 1 : Int) : Rat)
         else 0) := by
  cases hE : List.insertionSort (fun a b : Journal => b.created_at ≤ a.created_at)
      (windowEntries db user_id start_date end_date) with
  | nil =>
      rw [get_analytics_overview_eq_empty db user_id start_date end_date hE]
        at h
      cases h
  | cons e0 rest =>
      rw [get_analytics_overview_eq_found db user_id start_date end_date e0
        rest hE] at h
      have hr := Except.ok.inj h
      subst hr
      constructor
      · show (e0 :: rest).length = _
        rw [← hE]
        exact (List.perm_insertionSort _ _).length_eq
      · rfl

/-- C2 (counterexample): with one entry and the window from day 0 23:00 to
day 1 01:00, the code divides by 1 (floored datetime delta + 1) and returns
1.0, while the claim's inclusive calendar-day count is 2 and would give 0.5. -/
theorem c2_counterexample_calendar_vs_datetime :
    (get_analytics_overview dbOneEntry 1 82800 90000).map
        (fun r => r.total_entries) = Except.ok 1
    ∧ (get_analytics_overview dbOneEntry 1 82800 90000).map
        (fun r => r.avg_frequency) = Except.ok 1
    ∧ days_in_period_spec 82800 90000 = 2
    ∧ ((1 : Rat) ≠
        ((1 : Nat) : Rat) / ((days_in_period_spec 82800 90000 : Int) : Rat)) := by
  have hE : List.insertionSort (fun a b : Journal => b.created_at ≤ a.created_at)
      (windowEntries dbOneEntry 1 82800 90000) =
      [{ id := 1, created_at := 86400, user_id := 1, curriculum_id := 1,
         secondary_curriculum_id := none, strategy_id := none,
         initiated_by := InitiatedBy.self }] := by decide
  have hov := get_analytics_overview_eq_found dbOneEntry 1 82800 90000 _ [] hE
  refine ⟨?_, ?_, by decide, ?_⟩
  · rw [hov]
    rfl
  · rw [hov]
    simp only [Except.map]
    norm_num [timedeltaDays, Int.fdiv]
  · have hd : days_in_period_spec 82800 90000 = 2 := by decide
    rw [hd]
    norm_num

/-- C1 (amended): with zero in-window entries, the overview and the
emotional landscape both fail with 404, self-care and temporal return
zero-valued structures, and growth returns zero diversity and coverage with
a medicinal trend equal to minus the preceding window's medicinal ratio. -/
theorem c1_empty_window_behavior (db : DB) (user_id : Nat)
    (start_date end_date : Int) (limit1 limit2 : Nat)
    (h : windowEntries db user_id start_date end_date = []) :
    get_analytics_overview db user_id start_date end_date = Except.error 404
    ∧ get_emotional_landscape db user_id start_date end_date limit1 =
        Except.error 404
    ∧ get_self_care_analytics db user_id start_date end_date limit2 =
        Except.ok { top_strategies := [], diversity_score := 0,
                    total_strategy_entries := 0 }
    ∧ get_temporal_patterns db user_id start_date end_date =
        Except.ok { hourly_distribution := [], consistency_score := 0 }
    ∧ get_growth_indicators db user_id start_date end_date =
        Except.ok (GrowthIndicators.mk
          (0 - calculate_medicinal_ratio db user_id
            (start_date - (end_date - start_date)) start_date) 0 0) := by
  have hE : List.insertionSort (fun a b : Journal => b.created_at ≤ a.created_at)
      (windowEntries db user_id start_date end_date) = [] := by
    rw [h]
    rfl
  have hlay : joinedLayerIds db user_id start_date end_date = [] := by
    simp only [joinedLayerIds, h, List.filterMap_nil]
  have hpha : joinedPhaseIds db user_id start_date end_date = [] := by
    simp only [joinedPhaseIds, h, List.filterMap_nil]
  have hcur : calculate_medicinal_ratio db user_id start_date end_date = 0 := by
    simp [calculate_medicinal_ratio, joinedDosages, h]
  refine ⟨get_analytics_overview_eq_empty db user_id start_date end_date hE,
    ?_, ?_, ?_, ?_⟩
  · simp [get_emotional_landscape, h]
  · simp [get_self_care_analytics, h]
  · simp [get_temporal_patterns, h]
  · have h2 : get_growth_indicators db user_id start_date end_date =
        Except.ok (GrowthIndicators.mk
          (calculate_medicinal_trend db user_id start_date end_date)
          ((joinedLayerIds db user_id start_date end_date).dedup.length)
          ((joinedPhaseIds db user_id start_date end_date).dedup.length)) :=
      rfl
    have h3 : calculate_medicinal_trend db user_id start_date end_date =
        calculate_medicinal_ratio db user_id start_date end_date
        - calculate_medicinal_ratio db user_id
            (start_date - (end_date - start_date)) start_date := rfl
    rw [h2, h3, hcur, hlay, hpha]
    rfl

/-- C1 (counterexample): for a user/window with zero entries, the
emotional-landscape endpoint fails with 404 rather than succeeding, and the
growth endpoint, though it succeeds, returns a non-zero medicinal trend
because the preceding window has entries. -/
theorem c1_counterexample_nonuniform_empty_behavior :
    windowEntries dbPrevEntry 1 864000 1728000 = []
    ∧ get_emotional_landscape dbPrevEntry 1 864000 1728000 10 =
        Except.error 404
    ∧ get_growth_indicators dbPrevEntry 1 864000 1728000 =
        Except.ok (GrowthIndicators.mk (-100) 0 0)
    ∧ ((-100 : Rat) ≠ 0) := by
  have hw : windowEntries dbPrevEntry 1 864000 1728000 = [] := by decide
  have hcur : calculate_medicinal_ratio dbPrevEntry 1 864000 1728000 = 0 :=
    rfl
  have hjd : joinedDosages dbPrevEntry 1 (864000 - (1728000 - 864000))
      864000 = [Dosage.medicinal] := by decide
  have hprev : calculate_medicinal_ratio dbPrevEntry 1
      (864000 - (1728000 - 864000)) 864000 = 100 := by
    have h1 : calculate_medicinal_ratio dbPrevEntry 1
        (864000 - (1728000 - 864000)) 864000 =
        (if (joinedDosages dbPrevEntry 1 (864000 - (1728000 - 864000))
            864000).isEmpty then (0 : Rat)
         else if 0 < (joinedDosages dbPrevEntry 1
            (864000 - (1728000 - 864000)) 864000).length
          then (((joinedDosages dbPrevEntry 1 (864000 - (1728000 - 864000))
              864000).countP (fun d => d == Dosage.medicinal) : Rat) /
            ((joinedDosages dbPrevEntry 1 (864000 - (1728000 - 864000))
              864000).length : Rat)) * 100
          else 0) := rfl
    rw [h1, hjd]
    norm_num
  have htrend : calculate_medicinal_trend dbPrevEntry 1 864000 1728000 =
      -100 := by
    have h1 : calculate_medicinal_trend dbPrevEntry 1 864000 1728000 =
        calculate_medicinal_ratio dbPrevEntry 1 864000 1728000
        - calculate_medicinal_ratio dbPrevEntry 1
            (864000 - (1728000 - 864000)) 864000 := rfl
    rw [h1, hcur, hprev]
    norm_num
  have hlay : joinedLayerIds dbPrevEntry 1 864000 1728000 = [] := by
    simp only [joinedLayerIds, hw, List.filterMap_nil]
  have hpha : joinedPhaseIds dbPrevEntry 1 864000 1728000 = [] := by
    simp only [joinedPhaseIds, hw, List.filterMap_nil]
  refine ⟨hw, by rfl, ?_, by norm_num⟩
  have h2 : get_growth_indicators dbPrevEntry 1 864000 1728000 =
      Except.ok (GrowthIndicators.mk
        (calculate_medicinal_trend dbPrevEntry 1 864000 1728000)
        ((joinedLayerIds dbPrevEntry 1 864000 1728000).dedup.length)
        ((joinedPhaseIds dbPrevEntry 1 864000 1728000).dedup.length)) := rfl
  rw [h2, htrend, hlay, hpha]
  rfl

theorem modifyAt_map {α β : Type} (g : α → β) :
    ∀ (l : List α) (n : Nat) (f : α → α), (∀ x, g (f x) = g x) →
    (modifyAt l n f).map g = l.map g := by
  intro l
  induction l with
  | nil => intro n f _; rfl
  | cons x xs ih =>
      intro n f hf
      cases n with
      | zero =>
          rw [modifyAt, List.map_cons, List.map_cons, hf]
      | succ m =>
          rw [modifyAt, List.map_cons, List.map_cons, ih m f hf]

theorem placeCurriculum_map_name (template : List (Nat × String))
    (phases : List CatalogPhase) (c : Curriculum) :
    (placeCurriculum template phases c).map (fun p => p.name) =
      phases.map (fun p => p.name) := by
  unfold placeCurriculum
  cases hpi : phaseIndexOf template c.phase_id with
  | none => rfl
  | some index =>
      show (if index < phases.length then modifyAt phases index _
        else phases).map (fun p => p.name) = _
      by_cases hlt : index < phases.length
      · rw [if_pos hlt]
        apply modifyAt_map
        intro ph
        by_cases hd : (c.dosage == Dosage.medicinal) = true
        · rw [if_pos hd]
        · rw [if_neg hd]
      · rw [if_neg hlt]

theorem placeStrategy_map_name (template : List (Nat × String))
    (phases : List CatalogPhase) (s : Strategy) :
    (placeStrategy template phases s).map (fun p => p.name) =
      phases.map (fun p => p.name) := by
  unfold placeStrategy
  cases hpi : phaseIndexOf template s.phase_id with
  | none => rfl
  | some index =>
      show (if index < phases.length then modifyAt phases index _
        else phases).map (fun p => p.name) = _
      by_cases hlt : index < phases.length
      · rw [if_pos hlt]
        apply modifyAt_map
        intro ph
        rfl
      · rw [if_neg hlt]

theorem foldl_placeCurriculum_map_name (template : List (Nat × String)) :
    ∀ (items : List Curriculum) (phases : List CatalogPhase),
    ((items.foldl (placeCurriculum template) phases).map (fun p => p.name)) =
      phases.map (fun p => p.name) := by
  intro items
  induction items with
  | nil => intro phases; rfl
  | cons c rest ih =>
      intro phases
      rw [List.foldl_cons, ih (placeCurriculum template phases c),
        placeCurriculum_map_name]

theorem foldl_placeStrategy_map_name (template : List (Nat × String)) :
    ∀ (items : List Strategy) (phases : List CatalogPhase),
    ((items.foldl (placeStrategy template) phases).map (fun p => p.name)) =
      phases.map (fun p => p.name) := by
  intro items
  induction items with
  | nil => intro phases; rfl
  | cons s rest ih =>
      intro phases
      rw [List.foldl_cons, ih (placeStrategy template phases s),
        placeStrategy_map_name]

/-- C3 (amended): the catalog lists `phase_order` — and every layer's phase
buckets — in ascending phase-id order (the names of the phases sorted by
id), not in a fixed canonical order; the canonical display order is obtained
exactly when the ids are assigned in that order, as the seed data does. -/
theorem c3_catalog_orders_phases_by_id (db : DB) :
    (build_catalog db).phase_order =
      (List.insertionSort (fun a b : Phase => a.id ≤ b.id) db.phases).map
        (fun p => p.name)
    ∧ (∀ L ∈ (build_catalog db).layers,
        L.phases.map (fun p => p.name) =
          (List.insertionSort (fun a b : Phase => a.id ≤ b.id) db.phases).map
            (fun p => p.name)) := by
  constructor
  · show (((List.insertionSort (fun a b : Phase => a.id ≤ b.id) db.phases).map
      (fun p => (p.id, p.name))).map (fun p => p.2)) = _
    rw [List.map_map]
    rfl
  · intro L hL
    have hL2 : L ∈ (List.insertionSort (fun a b : Layer => a.id ≤ b.id)
        db.layers).map (fun layer =>
      CatalogLayer.mk layer.id layer.color layer.title layer.subtitle
        ((List.insertionSort (fun a b : Strategy =>
            lexLe (stratKey ((List.insertionSort
                (fun a b : Phase => a.id ≤ b.id) db.phases).map
              (fun p => (p.id, p.name))) a)
              (stratKey ((List.insertionSort
                (fun a b : Phase => a.id ≤ b.id) db.phases).map
              (fun p => (p.id, p.name))) b))
          (db.strategies.filter (fun s => s.layer_id == layer.id))).foldl
          (placeStrategy ((List.insertionSort
            (fun a b : Phase => a.id ≤ b.id) db.phases).map
            (fun p => (p.id, p.name))))
          ((List.insertionSort (fun a b : Curriculum =>
              lexLe (currKey ((List.insertionSort
                  (fun a b : Phase => a.id ≤ b.id) db.phases).map
                (fun p => (p.id, p.name))) a)
                (currKey ((List.insertionSort
                  (fun a b : Phase => a.id ≤ b.id) db.phases).map
                (fun p => (p.id, p.name))) b))
            (db.curricula.filter (fun c => c.layer_id == layer.id))).foldl
            (placeCurriculum ((List.insertionSort
              (fun a b : Phase => a.id ≤ b.id) db.phases).map
              (fun p => (p.id, p.name))))
            (((List.insertionSort (fun a b : Phase => a.id ≤ b.id)
              db.phases).map (fun p => (p.id, p.name))).map
              (fun p => CatalogPhase.mk p.1 p.2 [] [] []))))) := hL
    obtain ⟨layer, hmem, rfl⟩ := List.mem_map.mp hL2
    rw [show (CatalogLayer.mk layer.id layer.color layer.title layer.subtitle
        _).phases = _ from rfl]
    rw [foldl_placeStrategy_map_name, foldl_placeCurriculum_map_name,
      List.map_map, List.map_map]
    rfl

/-- C3 (counterexample): with phase ids assigned against the canonical
order, the catalog's `phase_order` follows the ids, not the canonical
display order `PHASE_ORDER`. -/
theorem c3_counterexample_id_order_wins :
    (build_catalog dbPhasesScrambled).phase_order =
      ["Restoration", "Bottoming Out", "Diminishing", "Withdrawal",
       "Peaking", "Rising"]
    ∧ (build_catalog dbPhasesScrambled).phase_order ≠ PHASE_ORDER := by
  constructor
  · rfl
  · decide

/-- Witness for C2's amended theorem at a concrete database and window. -/
theorem c2_avg_frequency_witness :
    dbOneEntryRecord.total_entries =
      (windowEntries dbOneEntry 1 82800 90000).length
    ∧ dbOneEntryRecord.avg_frequency =
        (if 0 < timedeltaDays (90000 - 82800) + 1
         then (dbOneEntryRecord.total_entries : Rat) /
           ((timedeltaDays (90000 - 82800) + 1 : Int) : Rat)
         else 0) :=
  c2_avg_frequency_uses_datetime_delta dbOneEntry 1 82800 90000
    dbOneEntryRecord
    (by
      rw [get_analytics_overview_eq_found dbOneEntry 1 82800 90000
        { id := 1, created_at := 86400, user_id := 1, curriculum_id := 1,
          secondary_curriculum_id := none, strategy_id := none,
          initiated_by := InitiatedBy.self } [] (by decide)]
      rfl)

/-- Witness for C1's amended theorem at a database with no journal rows. -/
theorem c1_empty_window_behavior_witness :
    get_analytics_overview dbPhasesScrambled 1 0 86400 = Except.error 404
    ∧ get_emotional_landscape dbPhasesScrambled 1 0 86400 10 =
        Except.error 404
    ∧ get_self_care_analytics dbPhasesScrambled 1 0 86400 5 =
        Except.ok { top_strategies := [], diversity_score := 0,
                    total_strategy_entries := 0 }
    ∧ get_temporal_patterns dbPhasesScrambled 1 0 86400 =
        Except.ok { hourly_distribution := [], consistency_score := 0 }
    ∧ get_growth_indicators dbPhasesScrambled 1 0 86400 =
        Except.ok (GrowthIndicators.mk
          (0 - calculate_medicinal_ratio dbPhasesScrambled 1
            (0 - (86400 - 0)) 0) 0 0) :=
  c1_empty_window_behavior dbPhasesScrambled 1 0 86400 10 5 (by decide)

/-- Witness for C3's amended theorem at a concrete catalog database. -/
theorem c3_catalog_orders_phases_by_id_witness :
    (CatalogLayer.mk 1 "Beige" "SELF-CARE" "(For Surfing)"
      [CatalogPhase.mk 1 "Restoration" [] [] [],
       CatalogPhase.mk 2 "Bottoming Out" [] [] [],
       CatalogPhase.mk 3 "Diminishing" [] [] [],
       CatalogPhase.mk 4 "Withdrawal" [] [] [],
       CatalogPhase.mk 5 "Peaking" [] [] [],
       CatalogPhase.mk 6 "Rising" [] [] []]).phases.map (fun p => p.name) =
      (List.insertionSort (fun a b : Phase => a.id ≤ b.id)
        dbCatalogSample.phases).map (fun p => p.name) :=
  (c3_catalog_orders_phases_by_id dbCatalogSample).2
    (CatalogLayer.mk 1 "Beige" "SELF-CARE" "(For Surfing)"
      [CatalogPhase.mk 1 "Restoration" [] [] [],
       CatalogPhase.mk 2 "Bottoming Out" [] [] [],
       CatalogPhase.mk 3 "Diminishing" [] [] [],
       CatalogPhase.mk 4 "Withdrawal" [] [] [],
       CatalogPhase.mk 5 "Peaking" [] [] [],
       CatalogPhase.mk 6 "Rising" [] [] []]) (by decide)

/-- Witness for C4 at entries on days 0, 3 and 4 with the window ending on
day 4: the streak is 2, dates 4 and 3 are present, date 2 is absent. -/
theorem c4_current_streak_witness :
    ((4 : Int) - ((0 : Nat) : Int)) ∈
      ([0, 259200, 345600] : List Int).map toDate
    ∧ ((4 : Int) -
        ((calculate_streak [0, 259200, 345600] 345600 : Nat) : Int)) ∉
      ([0, 259200, 345600] : List Int).map toDate := by
  have h := (c4_current_streak_characterization [0, 259200, 345600]
    345600).2.2 4 (by decide) (by decide) (by decide)
  exact ⟨h.1 0 (by decide), h.2⟩

/-- Witness for C6 at runs of lengths 1 and 2 with the gap of 2 days. -/
theorem c6_two_runs_witness :
    calculate_streak [0, 259200, 345600] 345600 = 2
    ∧ calculate_longest_streak [0, 259200, 345600] = max 1 2 :=
  c6_two_runs_gap_two [0, 259200, 345600] 345600 0 1 2 (by decide)
    (by decide) (by decide) (by decide)

/-- Witness for C8 at a concrete database: the single listed emotion counts
its primary and secondary references. -/
theorem c8_top_emotions_witness :
    (topEmotions dbOneEntry 1 0 172800 10).length ≤ 10
    ∧ (TopEmotionItem.mk 1 "Calm" 1 1 Dosage.medicinal 1).count =
        (windowEntries dbOneEntry 1 0 172800).countP
          (fun j => j.curriculum_id ==
            (TopEmotionItem.mk 1 "Calm" 1 1 Dosage.medicinal 1).curriculum_id)
        + (windowEntries dbOneEntry 1 0 172800).countP
          (fun j => j.secondary_curriculum_id ==
            some (TopEmotionItem.mk 1 "Calm" 1 1
              Dosage.medicinal 1).curriculum_id) := by
  have h := c8_top_emotions_combined_ranking dbOneEntry 1 0 172800 10
    (by decide)
  exact ⟨h.1, h.2.2.1 (TopEmotionItem.mk 1 "Calm" 1 1 Dosage.medicinal 1)
    (by decide)⟩

/-- Witness for C9 at a concrete naive datetime. -/
theorem c9_created_at_witness :
    instantOf { naive := 100, tz := none } = 100
    ∧ coerce_datetime (some { naive := 100, tz := none }) =
        some { naive := instantOf { naive := 100, tz := none },
               tz := some 0 } := by
  have h := c9_created_at_utc_coercion { naive := 100, tz := none }
  exact ⟨h.2.2.2.2 rfl, h.1⟩

/-- Witness for C10: an empty update on an existing row is a no-op. -/
theorem c10_update_journal_witness :
    update_journal dbOneEntry 1
      (JournalUpdate.mk none none none none none none) =
    (Except.ok { id := 1, created_at := 86400, user_id := 1,
                 curriculum_id := 1, secondary_curriculum_id := none,
                 strategy_id := none, initiated_by := InitiatedBy.self },
      dbOneEntry) := by
  have h := c10_update_journal_no_partial_writes dbOneEntry 1
    (JournalUpdate.mk none none none none none none)
  exact h.2.2.1 (by decide) _ (by decide)

end WavelengthWatch
